import Mathlib

set_option maxHeartbeats 1000000

/-!
Verification of the TalentScout hiring-assistant conversation engine.

Shallow embedding of the repository's Python sources:
  * `utils.py`    — sanitization, exit-intent detection, JSON block
                    extraction/stripping, technical-question parsing;
  * `models.py`   — the `CandidateInfo` profile record and its derived values;
  * `llm_client.py` — the model-client facade (the network transport is the
                    external collaborator, modelled as an oracle: a queue of
                    `Except Unit` results consumed one per completion call);
  * `conversation.py` — the `ConversationManager` state machine.

Python strings are modelled as `List Char` (`PyStr`); machine text operations
(strip, regex substitutions, JSON parsing) are re-implemented faithfully from
the concrete regular expressions and `json.loads` behaviour used by the code.
-/

namespace TalentScout

/-- Python strings, modelled as lists of characters. -/
abbrev PyStr := List Char

/-- Characters matched by the regex class backslash-s (ASCII subset; the
repository only ever manipulates ASCII whitespace). -/
def isPySpace (c : Char) : Bool :=
  c = ' ' || c = '\t' || c = '\n' || c = '\r' || c = '\x0b' || c = '\x0c'

/-- Python `str.strip()`: remove leading and trailing whitespace. -/
def pyStrip (s : PyStr) : PyStr :=
  ((s.dropWhile isPySpace).reverse.dropWhile isPySpace).reverse

/-- Python `str.rstrip()`: remove trailing whitespace. -/
def pyRstrip (s : PyStr) : PyStr :=
  (s.reverse.dropWhile isPySpace).reverse

/-- Helper for `re.sub(r'\s+', ' ', text)`: the flag records whether the
previous character belonged to a whitespace run already replaced. -/
def collapseWsAux : Bool → PyStr → PyStr
  | _, [] => []
  | inRun, c :: rest =>
    if isPySpace c then
      if inRun then collapseWsAux true rest
      else ' ' :: collapseWsAux true rest
    else c :: collapseWsAux false rest

/-- `re.sub(r'\s+', ' ', text)`: collapse every whitespace run to one space. -/
def collapseWs (s : PyStr) : PyStr := collapseWsAux false s

/-- `utils.sanitize_input`: strip, collapse whitespace runs, truncate to 2000
characters (`text[:2000]`). -/
def sanitize_input (s : PyStr) : PyStr :=
  (collapseWs (pyStrip s)).take 2000

/-- Python `str.lower()` (ASCII; exit keywords are ASCII). -/
def pyLower (s : PyStr) : PyStr := s.map Char.toLower

/-- `config.EXIT_KEYWORDS` (a Python set; membership and the prefix scan are
order-independent, so a list model is adequate). -/
def EXIT_KEYWORDS : List PyStr :=
  [ ("bye".data), ("goodbye".data), ("exit".data), ("quit".data),
    ("end".data), ("stop".data), ("thanks bye".data), ("thank you bye".data),
    ("see you".data), ("later".data), ("done".data), ("finish".data),
    ("end conversation".data), ("close".data), ("no more".data),
    ("that\x27s all".data), ("i\x27m done".data), ("im done".data) ]

/-- `utils.check_exit_intent`: normalize (strip + lowercase), then exact match
against the keyword set or prefix match against any keyword. -/
def check_exit_intent (message : PyStr) (exitKeywords : List PyStr) : Bool :=
  let normalized := pyLower (pyStrip message)
  if exitKeywords.contains normalized then true
  else exitKeywords.any (fun k => k.isPrefixOf normalized)

/-! ## Candidate profile model (`models.py`) -/

/-- `models.CandidateInfo`: seven optional text fields, populated during the
conversation. Field order matches the Pydantic model declaration order. -/
structure CandidateInfo where
  full_name : Option PyStr := none
  email : Option PyStr := none
  phone : Option PyStr := none
  years_of_experience : Option PyStr := none
  desired_positions : Option PyStr := none
  current_location : Option PyStr := none
  tech_stack : Option PyStr := none
deriving DecidableEq

def fldFullName : PyStr := ("full_name".data)

def fldEmail : PyStr := ("email".data)

def fldPhone : PyStr := ("phone".data)

def fldYears : PyStr := ("years_of_experience".data)

def fldPositions : PyStr := ("desired_positions".data)

def fldLocation : PyStr := ("current_location".data)

def fldTechStack : PyStr := ("tech_stack".data)

/-- The keys of `config.CANDIDATE_FIELDS` / `CandidateInfo.model_dump()`, in
declaration order. -/
def CANDIDATE_FIELD_NAMES : List PyStr :=
  [fldFullName, fldEmail, fldPhone, fldYears, fldPositions, fldLocation,
   fldTechStack]

/-- `CandidateInfo.model_dump()`: ordered field-name/value pairs. -/
def CandidateInfo.dump (c : CandidateInfo) : List (PyStr × Option PyStr) :=
  [(fldFullName, c.full_name), (fldEmail, c.email), (fldPhone, c.phone),
   (fldYears, c.years_of_experience), (fldPositions, c.desired_positions),
   (fldLocation, c.current_location), (fldTechStack, c.tech_stack)]

/-- `getattr(candidate, field)` for the seven model fields (`none` result for
a name that is not a model field; the engine always guards with `hasattr`). -/
def CandidateInfo.get (c : CandidateInfo) (f : PyStr) : Option PyStr :=
  if f = fldFullName then c.full_name
  else if f = fldEmail then c.email
  else if f = fldPhone then c.phone
  else if f = fldYears then c.years_of_experience
  else if f = fldPositions then c.desired_positions
  else if f = fldLocation then c.current_location
  else if f = fldTechStack then c.tech_stack
  else none

/-- `setattr(candidate, field, v)` for the seven model fields (identity on a
name that is not a model field; Pydantic would reject such a write). -/
def CandidateInfo.set (c : CandidateInfo) (f : PyStr) (v : PyStr) :
    CandidateInfo :=
  if f = fldFullName then { c with full_name := some v }
  else if f = fldEmail then { c with email := some v }
  else if f = fldPhone then { c with phone := some v }
  else if f = fldYears then { c with years_of_experience := some v }
  else if f = fldPositions then { c with desired_positions := some v }
  else if f = fldLocation then { c with current_location := some v }
  else if f = fldTechStack then { c with tech_stack := some v }
  else c

/-- `hasattr(candidate, field)` restricted to the seven data fields. (For
other attribute names `hasattr` can also be true — methods — but Pydantic then
rejects the `setattr`; the engine is modelled on the data fields.) -/
def isCandidateField (f : PyStr) : Bool :=
  CANDIDATE_FIELD_NAMES.contains f

/-- `CandidateInfo.get_filled_fields()`: the filled name/value pairs. -/
def CandidateInfo.get_filled_fields (c : CandidateInfo) :
    List (PyStr × PyStr) :=
  c.dump.filterMap (fun kv => (kv.2).map (fun v => (kv.1, v)))

/-- `CandidateInfo.get_missing_fields()`: names of the unset fields. -/
def CandidateInfo.get_missing_fields (c : CandidateInfo) : List PyStr :=
  (c.dump.filter (fun kv => kv.2 = none)).map (fun kv => kv.1)

/-- `CandidateInfo.is_complete()`. -/
def CandidateInfo.is_complete (c : CandidateInfo) : Bool :=
  c.get_missing_fields.length == 0

/-- `CandidateInfo.get_completion_percentage()`: the source computes
`int((filled / total) * 100)` in floating point; for `filled ∈ [0..7]` and
`total = 7` the float truncation agrees exactly with natural floor division,
which is how it is rendered here. -/
def CandidateInfo.get_completion_percentage (c : CandidateInfo) : Nat :=
  (c.get_filled_fields.length * 100) / c.dump.length

/-- The empty profile created at conversation start. -/
def emptyCandidate : CandidateInfo := {}

/-! ## JSON values and `json.loads` (`utils.py` uses the `json` module) -/

/-- JSON values as produced by `json.loads`. A number keeps its integer
mantissa (all of its digits, signed) together with the raw lexeme; the
mantissa is zero exactly when the numeric value is zero, which is the only
numeric fact the engine ever consults (Python truthiness). -/
inductive JValue where
  | null
  | bool (b : Bool)
  | num (mantissa : Int) (lexeme : PyStr)
  | str (s : PyStr)
  | arr (items : List JValue)
  | obj (entries : List (PyStr × JValue))

/-- JSON whitespace (the characters skipped by Python's JSON scanner). -/
def isJsonWs (c : Char) : Bool :=
  c = ' ' || c = '\t' || c = '\n' || c = '\r'

def jsonSkipWs (s : PyStr) : PyStr := s.dropWhile isJsonWs

def hexVal (c : Char) : Option Nat :=
  if '0' ≤ c && c ≤ '9' then some (c.toNat - 48)
  else if 'a' ≤ c && c ≤ 'f' then some (c.toNat - 87)
  else if 'A' ≤ c && c ≤ 'F' then some (c.toNat - 55)
  else none

/-- Body of a JSON string after the opening quote: unescape until the closing
quote. Control characters are rejected (`json.loads` strict mode); `\uXXXX`
is decoded with `Char.ofNat`. -/
def parseStringBody : Nat → PyStr → Option (PyStr × PyStr)
  | 0, _ => none
  | _ + 1, [] => none
  | fuel + 1, c :: rest =>
    if c = '"' then some ([], rest)
    else if c = '\\' then
      match rest with
      | [] => none
      | e :: rest2 =>
        if e = '"' then
          (parseStringBody fuel rest2).map (fun p => ('"' :: p.1, p.2))
        else if e = '\\' then
          (parseStringBody fuel rest2).map (fun p => ('\\' :: p.1, p.2))
        else if e = '/' then
          (parseStringBody fuel rest2).map (fun p => ('/' :: p.1, p.2))
        else if e = 'b' then
          (parseStringBody fuel rest2).map (fun p => ('\x08' :: p.1, p.2))
        else if e = 'f' then
          (parseStringBody fuel rest2).map (fun p => ('\x0c' :: p.1, p.2))
        else if e = 'n' then
          (parseStringBody fuel rest2).map (fun p => ('\n' :: p.1, p.2))
        else if e = 'r' then
          (parseStringBody fuel rest2).map (fun p => ('\r' :: p.1, p.2))
        else if e = 't' then
          (parseStringBody fuel rest2).map (fun p => ('\t' :: p.1, p.2))
        else if e = 'u' then
          match rest2 with
          | a :: b :: c2 :: d :: rest3 =>
            match hexVal a, hexVal b, hexVal c2, hexVal d with
            | some ha, some hb, some hc, some hd =>
              (parseStringBody fuel rest3).map
                (fun p => (Char.ofNat (((ha * 16 + hb) * 16 + hc) * 16 + hd) :: p.1, p.2))
            | _, _, _, _ => none
          | _ => none
        else none
    else if c.toNat < 32 then none
    else (parseStringBody fuel rest).map (fun p => (c :: p.1, p.2))

def digitsToNat (ds : PyStr) : Nat :=
  ds.foldl (fun n c => n * 10 + (c.toNat - 48)) 0

/-- JSON number grammar (`-?(0|[1-9]digits)(.digits)?([eE][+-]?digits)?`),
plus the float constants `NaN` / `Infinity` / `-Infinity` that Python's
`json.loads` accepts. Returns the value and the unconsumed remainder. -/
def parseNumber (s : PyStr) : Option (JValue × PyStr) :=
  let core : PyStr → Option (Int × PyStr) := fun s1 =>
    match s1 with
    | [] => none
    | c :: _ =>
      if !c.isDigit then none
      else
        let ip := s1.takeWhile Char.isDigit
        let r1 := s1.dropWhile Char.isDigit
        if ip.length > 1 && ip.headD ' ' == '0' then none
        else
          let fr := match r1 with
            | '.' :: r => some (r.takeWhile Char.isDigit, r.dropWhile Char.isDigit)
            | _ => none
          match fr with
          | some ([], _) => none
          | some (fp, r2) =>
            some ((digitsToNat (ip ++ fp) : Int), consumeExp r2)
          | none => some ((digitsToNat ip : Int), consumeExp r1)
  match s with
  | '-' :: r =>
    if ("Infinity".data).isPrefixOf r then
      some (.num (-1) (s.take 9), r.drop 8)
    else
      (core r).map (fun p =>
        (.num (-p.1) (s.take (s.length - p.2.length)), p.2))
  | _ =>
    if ("NaN".data).isPrefixOf s then some (.num 1 (s.take 3), s.drop 3)
    else if ("Infinity".data).isPrefixOf s then some (.num 1 (s.take 8), s.drop 8)
    else
      (core s).map (fun p =>
        (.num p.1 (s.take (s.length - p.2.length)), p.2))
where
  /-- Consume a well-formed exponent part if present (the scanner leaves a
  malformed exponent unconsumed, making the surrounding parse fail there). -/
  consumeExp (r : PyStr) : PyStr :=
    match r with
    | e :: r2 =>
      if e == 'e' || e == 'E' then
        let r3 := match r2 with
          | sgn :: r3 => if sgn == '+' || sgn == '-' then r3 else r2
          | [] => r2
        match r3 with
        | d :: _ => if d.isDigit then r3.dropWhile Char.isDigit else r
        | [] => r
      else r
    | [] => r

/-- Python-dict assignment `d[k] = v`: a repeated key keeps its original
position but takes the latest value. -/
def upsertEntry : List (PyStr × JValue) → PyStr → JValue → List (PyStr × JValue)
  | [], k, v => [(k, v)]
  | (k0, v0) :: rest, k, v =>
    if k0 = k then (k0, v) :: rest else (k0, v0) :: upsertEntry rest k v

mutual

/-- Recursive-descent JSON value parser (fuel-indexed; callers supply fuel
larger than twice the input length, which is always sufficient since every
recursive call follows at least one consumed character). -/
def parseVal : Nat → PyStr → Option (JValue × PyStr)
  | 0, _ => none
  | fuel + 1, s =>
    match jsonSkipWs s with
    | [] => none
    | c :: rest =>
      if c = '{' then
        match jsonSkipWs rest with
        | '}' :: r2 => some (.obj [], r2)
        | r => (parseObjItems fuel r []).map (fun p => (.obj p.1, p.2))
      else if c = '[' then
        match jsonSkipWs rest with
        | ']' :: r2 => some (.arr [], r2)
        | r => (parseArrItems fuel r []).map (fun p => (.arr p.1, p.2))
      else if c = '"' then
        (parseStringBody (rest.length + 1) rest).map (fun p => (.str p.1, p.2))
      else if c = 't' then
        if ("rue".data).isPrefixOf rest then some (.bool true, rest.drop 3)
        else none
      else if c = 'f' then
        if ("alse".data).isPrefixOf rest then some (.bool false, rest.drop 4)
        else none
      else if c = 'n' then
        if ("ull".data).isPrefixOf rest then some (.null, rest.drop 3)
        else none
      else parseNumber (c :: rest)

/-- Object entries after the opening brace (first key expected next). -/
def parseObjItems (fuel : Nat) (s : PyStr) (acc : List (PyStr × JValue)) :
    Option (List (PyStr × JValue) × PyStr) :=
  match fuel with
  | 0 => none
  | fuel + 1 =>
    match jsonSkipWs s with
    | '"' :: r =>
      match parseStringBody (r.length + 1) r with
      | none => none
      | some (key, r2) =>
        match jsonSkipWs r2 with
        | ':' :: r3 =>
          match parseVal fuel r3 with
          | none => none
          | some (v, r4) =>
            let acc2 := upsertEntry acc key v
            match jsonSkipWs r4 with
            | ',' :: r5 => parseObjItems fuel r5 acc2
            | '}' :: r5 => some (acc2, r5)
            | _ => none
        | _ => none
    | _ => none

/-- Array items after the opening bracket (first item expected next). -/
def parseArrItems (fuel : Nat) (s : PyStr) (acc : List JValue) :
    Option (List JValue × PyStr) :=
  match fuel with
  | 0 => none
  | fuel + 1 =>
    match parseVal fuel s with
    | none => none
    | some (v, r) =>
      match jsonSkipWs r with
      | ',' :: r2 => parseArrItems fuel r2 (acc ++ [v])
      | ']' :: r2 => some (acc ++ [v], r2)
      | _ => none

end

/-- `json.loads`: parse one document, then require only whitespace to
remain. -/
def jsonLoads (s : PyStr) : Option JValue :=
  match parseVal (2 * s.length + 4) s with
  | some (v, rest) => if (jsonSkipWs rest).isEmpty then some v else none
  | none => none

/-- Dictionary lookup `j[k]` / `k in j` on a parsed JSON object. -/
def JValue.getKey : JValue → PyStr → Option JValue
  | .obj entries, k => List.lookup k entries
  | _, _ => none

def JValue.hasKey (j : JValue) (k : PyStr) : Bool := (j.getKey k).isSome

/-- Python truthiness of a parsed JSON value. -/
def JValue.truthy : JValue → Bool
  | .null => false
  | .bool b => b
  | .num m _ => m != 0
  | .str s => !s.isEmpty
  | .arr l => !l.isEmpty
  | .obj l => !l.isEmpty

/-- `.items()` on the parsed `extracted` object. (Calling `.items()` on a
non-dict raises in Python; the verified claims only exercise objects, and a
non-object is modelled as having no items.) -/
def JValue.items : JValue → List (PyStr × JValue)
  | .obj entries => entries
  | _ => []

/-- The comparison `value != "null"` from the extraction loop: a parsed JSON
value equals the Python string "null" exactly when it is that string. -/
def JValue.isNullStr : JValue → Bool
  | .str s => s == ("null".data)
  | _ => false

/-- Python `str(value)` for a parsed JSON value. String values come back
unchanged — the only case the verified claims depend on; numbers yield their
lexeme; containers get a simplified placeholder rendering. -/
def JValue.pyStr : JValue → PyStr
  | .null => ("None".data)
  | .bool true => ("True".data)
  | .bool false => ("False".data)
  | .num _ lex => lex
  | .str s => s
  | .arr _ => ("<list>".data)
  | .obj _ => ("<dict>".data)

/-! ## Fenced / raw JSON block regexes (`utils.py`) -/

def TICKJSON : PyStr := ("```json".data)

def TICKS : PyStr := ("```".data)

/-- Continuation of the lazy group in `` ```json\s*(\{.*?\})\s*``` ``: after
a candidate closing brace the remainder must be whitespace then three
backticks. -/
def fencedCloseOk (r : PyStr) : Bool :=
  TICKS.isPrefixOf (r.dropWhile isPySpace)

/-- Text after the closing backticks of a fenced match. -/
def afterTicks (r : PyStr) : PyStr := (r.dropWhile isPySpace).drop 3

/-- Lazy scan for the end of the group `(\{.*?\})`: stop at the first closing
brace whose continuation matches. `accRev` holds the group body scanned so
far, reversed. -/
def lazyCloseFenced (accRev : PyStr) : PyStr → Option (PyStr × PyStr)
  | [] => none
  | c :: r =>
    if c == '}' && fencedCloseOk r then
      some ('{' :: (accRev.reverse ++ ['}']), afterTicks r)
    else lazyCloseFenced (c :: accRev) r

/-- Match the tail of the fenced pattern right after the literal
` ```json `: skip whitespace, require an opening brace, lazily close.
Returns (group 1, text after the whole match). -/
def fencedComplete (s : PyStr) : Option (PyStr × PyStr) :=
  match s.dropWhile isPySpace with
  | '{' :: r => lazyCloseFenced [] r
  | _ => none

/-- `re.search(r'```json\s*(\{.*?\})\s*```', response, re.DOTALL)`: leftmost
match; returns (text before the match, group 1, text after the match). -/
def fencedFind : PyStr → Option (PyStr × PyStr × PyStr)
  | [] => none
  | c :: rest =>
    if TICKJSON.isPrefixOf (c :: rest) then
      match fencedComplete ((c :: rest).drop 7) with
      | some (g, post) => some ([], g, post)
      | none => (fencedFind rest).map (fun t => (c :: t.1, t.2.1, t.2.2))
    else (fencedFind rest).map (fun t => (c :: t.1, t.2.1, t.2.2))

/-- Fuel-indexed scan of
`re.sub(r'```json\s*\{.*?\}\s*```', '', response, flags=re.DOTALL)`:
remove every fenced JSON block, scanning left to right and resuming after
each removed match. Every step consumes at least one input character, so
fuel equal to the input length always suffices (`fencedComplete` only ever
shortens the text). -/
def stripFencedAux : Nat → PyStr → PyStr
  | 0, s => s
  | _ + 1, [] => []
  | fuel + 1, c :: rest =>
    if TICKJSON.isPrefixOf (c :: rest) then
      match fencedComplete ((c :: rest).drop 7) with
      | some gp => stripFencedAux fuel gp.2
      | none => c :: stripFencedAux fuel rest
    else c :: stripFencedAux fuel rest

/-- The fenced-block `re.sub`, with sufficient fuel. -/
def stripFencedAll (s : PyStr) : PyStr := stripFencedAux s.length s

/-! ## Raw JSON-with-"extracted" regex (`utils.py`) -/

/-- The literal `"extracted"` (with its quotes) required inside the first
brace-free span of the raw pattern `\{[^{}]*"extracted"[^{}]*\{.*?\}.*?\}`. -/
def QEXTRACTED : PyStr := ('"' :: ("extracted".data)) ++ ['"']

def isBrace (c : Char) : Bool := c == '{' || c == '}'

/-- Substring containment (used for locating the literal `"extracted"`
inside the brace-free span; the exact position is immaterial — see
`rawTry`). -/
def containsSub (needle : PyStr) : PyStr → Bool
  | [] => needle.isEmpty
  | c :: r => needle.isPrefixOf (c :: r) || containsSub needle r

/-- First occurrence of a character: `some (before, after)` with
`before ++ ch :: after` the input. -/
def splitAtCharFirst (ch : Char) : PyStr → Option (PyStr × PyStr)
  | [] => none
  | c :: r =>
    if c == ch then some ([], r)
    else (splitAtCharFirst ch r).map (fun p => (c :: p.1, p.2))

/-- Try the raw pattern `\{[^{}]*"extracted"[^{}]*\{.*?\}.*?\}` at the start
of the text. The two greedy brace-free spans force: an opening brace, a
brace-free run containing the literal `"extracted"` terminated by a second
opening brace, then (two lazy groups) the next two closing braces. Returns
(matched span, text after the match). -/
def rawTry : PyStr → Option (PyStr × PyStr)
  | '{' :: rest =>
    let R := rest.takeWhile (fun c => !isBrace c)
    let afterR := rest.dropWhile (fun c => !isBrace c)
    if containsSub QEXTRACTED R then
      match afterR with
      | '{' :: inner =>
        match splitAtCharFirst '}' inner with
        | some (c1, r1) =>
          match splitAtCharFirst '}' r1 with
          | some (c2, post) =>
            some ('{' :: R ++ '{' :: (c1 ++ '}' :: (c2 ++ ['}'])), post)
          | none => none
        | none => none
      | _ => none
    else none
  | _ => none

/-- `re.search` of the raw pattern: leftmost match; returns
(text before, matched span, text after). -/
def rawFind : PyStr → Option (PyStr × PyStr × PyStr)
  | [] => none
  | c :: rest =>
    match rawTry (c :: rest) with
    | some (m, post) => some ([], m, post)
    | none => (rawFind rest).map (fun t => (c :: t.1, t.2.1, t.2.2))

/-- Fuel-indexed `re.sub` of the raw pattern (remove every match, resuming
after each; as with `stripFencedAux`, fuel equal to the input length always
suffices since `rawTry` strictly shortens the text). -/
def stripRawAux : Nat → PyStr → PyStr
  | 0, s => s
  | _ + 1, [] => []
  | fuel + 1, c :: rest =>
    match rawTry (c :: rest) with
    | some mp => stripRawAux fuel mp.2
    | none => c :: stripRawAux fuel rest

/-- The raw-pattern `re.sub`, with sufficient fuel. -/
def stripRawAll (s : PyStr) : PyStr := stripRawAux s.length s

/-- `re.sub(r'\n{3,}', '\n\n', ...)`: the counter tracks how many newlines
of the current run were already emitted. -/
def collapseNlAux : Nat → PyStr → PyStr
  | _, [] => []
  | cnt, c :: rest =>
    if c == '\n' then
      if cnt ≥ 2 then collapseNlAux (cnt + 1) rest
      else '\n' :: collapseNlAux (cnt + 1) rest
    else c :: collapseNlAux 0 rest

def collapseNl (s : PyStr) : PyStr := collapseNlAux 0 s

/-- `utils.extract_json_from_response`: first the fenced block (first regex
match, one parse attempt), then the raw pattern (first match, one parse
attempt). -/
def extract_json_from_response (response : PyStr) : Option JValue :=
  let rawAttempt : Option JValue :=
    match rawFind response with
    | some (_, m, _) => jsonLoads m
    | none => none
  match fencedFind response with
  | some (_, g, _) =>
    match jsonLoads g with
    | some v => some v
    | none => rawAttempt
  | none => rawAttempt

/-- `utils.strip_json_from_response`: remove fenced blocks, remove raw
matches, strip, collapse runs of three or more newlines to two. -/
def strip_json_from_response (response : PyStr) : PyStr :=
  collapseNl (pyStrip (stripRawAll (stripFencedAll response)))

/-! ## Markdown question parsing (`utils.parse_technical_questions`) -/

def isHdrDecor (c : Char) : Bool := c == '🔹' || c == '*'

/-- Tail of the technology-header regex after the captured group:
`\s*\]?\s*\**\s*$`. Deterministic: each quantifier's character class is
disjoint from the next literal, so greedy consumption never needs to be
undone. -/
def hdrTailOk (s : PyStr) : Bool :=
  let s1 := s.dropWhile isPySpace
  let s2 := match s1 with
    | ']' :: r => r.dropWhile isPySpace
    | _ => s1
  ((s2.dropWhile (fun c => c == '*')).dropWhile isPySpace).isEmpty

/-- The lazy group `(.+?)`: minimal nonempty prefix whose remainder passes
the tail matcher. -/
def lazyGroup (tailOk : PyStr → Bool) : PyStr → Option PyStr
  | [] => none
  | c :: rest =>
    if tailOk rest then some [c]
    else (lazyGroup tailOk rest).map (fun g => c :: g)

/-- Greedy-first alternatives for a `\s*`-style quantifier: the remainder
after consuming a maximal run, then after successively shorter runs (the
backtracking order of the regex engine). -/
def greedyChoices (p : Char → Bool) (s : PyStr) : List PyStr :=
  let L := (s.takeWhile p).length
  (List.range (L + 1)).map (fun i => s.drop (L - i))

def firstSome (l : List α) (f : α → Option β) : Option β :=
  l.foldl (fun acc a =>
    match acc with
    | some b => some b
    | none => f a) none

/-- The technology-header regex
`^#{1,4}\s*[🔹\*]*\s*\[?\s*(.+?)\s*\]?\s*\**\s*$`, with the Python engine's
backtracking priority: more hashes first, greedy whitespace/decoration runs,
`[` taken when present, lazily minimal group. -/
def headerMatch1 (line : PyStr) : Option PyStr :=
  let lead := (line.takeWhile (fun c => c == '#')).length
  firstSome ([4, 3, 2, 1].filter (fun h => h ≤ lead)) (fun h =>
    let r := line.drop h
    firstSome (greedyChoices isPySpace r) (fun r1 =>
      firstSome (greedyChoices isHdrDecor r1) (fun r2 =>
        firstSome (greedyChoices isPySpace r2) (fun r3 =>
          let openOpts : List PyStr := match r3 with
            | '[' :: r4 => [r4, r3]
            | _ => [r3]
          firstSome openOpts (fun r4 =>
            firstSome (greedyChoices isPySpace r4) (fun r5 =>
              lazyGroup hdrTailOk r5))))))

/-- Tail of the bold-header regex after the group: `\*\*\s*$`. -/
def boldTailOk (s : PyStr) : Bool :=
  match s with
  | '*' :: '*' :: r => (r.dropWhile isPySpace).isEmpty
  | _ => false

/-- The bold-only header regex `^\*\*(.+?)\*\*\s*$`. -/
def boldMatch (line : PyStr) : Option PyStr :=
  match line with
  | '*' :: '*' :: r => lazyGroup boldTailOk r
  | _ => none

/-- The numbered-question regex `^[\d]+[.\)]\s*(.+)$`: digits, a dot or a
closing parenthesis, then the captured remainder. Leading whitespace is
consumed greedily; in the corner case of a whitespace-only remainder the
real engine leaves one whitespace character in the group, which the caller
immediately strips away — so returning the whitespace-free remainder is
extensionally identical after the caller's strip. -/
def qMatchNum (line : PyStr) : Option PyStr :=
  let ds := line.takeWhile Char.isDigit
  if ds.isEmpty then none
  else
    match line.drop ds.length with
    | m :: rest =>
      if (m == '.' || m == ')') && !rest.isEmpty then
        some (rest.dropWhile isPySpace)
      else none
    | [] => none

/-- The bulleted-question regex `^[-•]\s*(.+)$` (same group convention as
`qMatchNum`). -/
def qMatchBullet (line : PyStr) : Option PyStr :=
  match line with
  | c :: rest =>
    if (c == '-' || c == '•') && !rest.isEmpty then
      some (rest.dropWhile isPySpace)
    else none
  | [] => none

/-- Python `str.strip(ch)` for a single strip character. -/
def pyStripChar (ch : Char) (s : PyStr) : PyStr :=
  ((s.dropWhile (fun c => c == ch)).reverse.dropWhile (fun c => c == ch)).reverse

/-- `tech_match.group(1).strip().strip('🔹').strip()`. -/
def techName (g : PyStr) : PyStr := pyStrip (pyStripChar '🔹' (pyStrip g))

/-- One parsed technology group. -/
structure TechGroup where
  technology : PyStr
  questions : List PyStr
deriving DecidableEq

/-- Python truthiness of `current_tech` (`None` and the empty string are
falsy). -/
def techActive : Option PyStr → Bool
  | none => false
  | some t => !t.isEmpty

/-- The line loop of `parse_technical_questions`. -/
def parseTQAux (currentTech : Option PyStr) (currentQs : List PyStr) :
    List PyStr → List TechGroup
  | [] =>
    if techActive currentTech && !currentQs.isEmpty then
      [TechGroup.mk (currentTech.getD []) currentQs]
    else []
  | rawLine :: rest =>
    let line := pyStrip rawLine
    if line.isEmpty then parseTQAux currentTech currentQs rest
    else
      match (headerMatch1 line).orElse (fun _ => boldMatch line) with
      | some g =>
        let flushed :=
          if techActive currentTech && !currentQs.isEmpty then
            [TechGroup.mk (currentTech.getD []) currentQs]
          else []
        flushed ++ parseTQAux (some (techName g)) [] rest
      | none =>
        match (qMatchNum line).orElse (fun _ => qMatchBullet line) with
        | some cap =>
          if techActive currentTech then
            let question := pyStrip cap
            if !question.isEmpty && question.length > 10 then
              parseTQAux currentTech (currentQs ++ [question]) rest
            else parseTQAux currentTech currentQs rest
          else parseTQAux currentTech currentQs rest
        | none => parseTQAux currentTech currentQs rest

def splitLinesAux (acc : PyStr) : PyStr → List PyStr
  | [] => [acc.reverse]
  | c :: r =>
    if c == '\n' then acc.reverse :: splitLinesAux [] r
    else splitLinesAux (c :: acc) r

/-- Python `response.split('\n')`. -/
def splitLines (s : PyStr) : List PyStr := splitLinesAux [] s

/-- `utils.parse_technical_questions`. -/
def parse_technical_questions (response : PyStr) : List TechGroup :=
  parseTQAux none [] (splitLines response)

/-! ## Prompt templates (`prompts.py`), with their `.format` holes -/

/-- `prompts.SYSTEM_PROMPT`, as its `.format` instantiation. -/
def SYSTEM_PROMPT_fmt (state_context candidate_context : PyStr) : PyStr :=
  ( "You are **TalentBot**, a professional and friendly AI Hiring Assistant for **TalentScout**, a leading recruitment agency specializing in technology placements.\n\n## Your Core Identity\n- You are warm, professional, and encouraging\n- You make candidates feel comfortable during the screening process\n- You are thorough but never pushy or aggressive\n- You NEVER deviate from your recruitment purpose — if asked about unrelated topics, politely redirect\n\n## Your Objectives (in order)\n1. **Greet** the candidate warmly and explain the screening process\n2. **Gather** their information one field at a time in natural conversation:\n   - Full Name\n   - Email Address\n   - Phone Number\n   - Years of Experience (in tech)\n   - Desired Position(s) they\x27re applying for\n   - Current Location\n   - Tech Stack (programming languages, frameworks, databases, tools)\n3. **Generate** 3-5 tailored technical questions per technology in their tech stack\n4. **Close** the conversation gracefully with next steps\n\n## Conversation Rules\n- Ask for ONE piece of information at a time — do not overwhelm the candidate\n- Validate information naturally (e.g., \"Just to confirm, your email is...?\")\n- If a candidate provides multiple pieces of info at once, acknowledge all of them\n- Be conversational, not robotic — use transitions like \"Great!\", \"Wonderful!\", \"Thanks for sharing that!\"\n- NEVER ask for passwords, SSN, or any highly sensitive personal data\n- If the candidate goes off-topic, gently redirect: \"I appreciate your interest in that! However, to keep our screening on track, let me ask you about...\"\n- If you don\x27t understand the input, ask for clarification politely\n- NEVER generate code, write essays, or perform tasks outside of recruitment screening\n\n## Data Privacy\n- Reassure candidates that their data is handled securely and in compliance with GDPR\n- Only collect information relevant to the hiring process\n\n## Current Conversation State\n" ).data ++
  state_context ++
  ( "\n\n## Candidate Information Collected So Far\n" ).data ++
  candidate_context ++
  ( "\n" ).data

/-- `prompts.GREETING_PROMPT`. -/
def GREETING_PROMPT : PyStr :=
  ( "Generate a warm, professional greeting for a new candidate visiting TalentScout\x27s screening chatbot.\n\nInclude:\n1. A friendly welcome\n2. Your name (TalentBot) and role\n3. Brief explanation that this is an initial screening for tech positions\n4. A reassurance about data privacy\n5. Ask for their full name to get started\n\nKeep it concise (3-5 sentences). Use a professional but approachable tone." ).data

/-- `prompts.INFO_GATHERING_PROMPT`, as its `.format` instantiation. -/
def INFO_GATHERING_PROMPT_fmt (full_name email phone years_of_experience desired_positions current_location tech_stack : PyStr) : PyStr :=
  ( "Based on the conversation so far, determine what information the candidate has provided and what still needs to be collected.\n\n## Required Fields (check which are already collected):\n- Full Name: " ).data ++
  full_name ++
  ( "\n- Email Address: " ).data ++
  email ++
  ( "\n- Phone Number: " ).data ++
  phone ++
  ( "\n- Years of Experience: " ).data ++
  years_of_experience ++
  ( "\n- Desired Position(s): " ).data ++
  desired_positions ++
  ( "\n- Current Location: " ).data ++
  current_location ++
  ( "\n- Tech Stack: " ).data ++
  tech_stack ++
  ( "\n\n## Instructions:\n1. Analyze the candidate\x27s latest message and extract any information they provided\n2. Acknowledge what they shared naturally\n3. Ask for the NEXT missing piece of information\n4. If ALL fields are collected, confirm the information summary and transition to technical questions\n\n## Response Format:\nRespond conversationally. Do NOT use JSON or structured format in your response to the candidate.\n\n## Data Extraction (internal):\nAfter your conversational response, on a new line, output EXACTLY this JSON block for internal processing:\n```json\n\x7b\n  \"extracted\": \x7b\n    \"full_name\": \"<value or null>\",\n    \"email\": \"<value or null>\",\n    \"phone\": \"<value or null>\",\n    \"years_of_experience\": \"<value or null>\",\n    \"desired_positions\": \"<value or null>\",\n    \"current_location\": \"<value or null>\",\n    \"tech_stack\": \"<value or null>\"\n  \x7d,\n  \"all_collected\": <true or false>\n\x7d\n```" ).data

/-- `prompts.TECH_QUESTIONS_PROMPT`, as its `.format` instantiation. -/
def TECH_QUESTIONS_PROMPT_fmt (name experience positions tech_stack : PyStr) : PyStr :=
  ( "You are a senior technical interviewer. Generate screening questions for a candidate with the following profile:\n\n**Candidate**: " ).data ++
  name ++
  ( "\n**Experience**: " ).data ++
  experience ++
  ( " years\n**Desired Position**: " ).data ++
  positions ++
  ( "\n**Tech Stack**: " ).data ++
  tech_stack ++
  ( "\n\n## Instructions:\n1. For EACH technology in their tech stack, generate 3-5 technical questions\n2. Questions should be appropriate for their experience level:\n   - 0-2 years: Foundational concepts, basic usage, simple problem-solving\n   - 3-5 years: Intermediate concepts, design decisions, best practices\n   - 6+ years: Advanced concepts, architecture, optimization, leadership\n3. Mix question types: conceptual, practical, scenario-based\n4. Questions should be clear and answerable in a text conversation\n5. DO NOT provide answers — just the questions\n\n## Format:\nPresent questions grouped by technology, like this:\n\n### 🔹 [Technology Name]\n1. [Question 1]\n2. [Question 2]\n3. [Question 3]\n\nAfter presenting ALL questions, tell the candidate:\n- They can take their time answering\n- They can answer in any order\n- They should feel free to ask for clarification on any question\n\nMake the transition to questions feel natural and encouraging." ).data

/-- `prompts.EVALUATE_ANSWER_PROMPT`, as its `.format` instantiation. -/
def EVALUATE_ANSWER_PROMPT_fmt (question_context answer : PyStr) : PyStr :=
  ( "You are evaluating a candidate\x27s technical answer during a screening interview.\n\n**Question context**: " ).data ++
  question_context ++
  ( "\n**Candidate\x27s answer**: " ).data ++
  answer ++
  ( "\n\n## Instructions:\n1. Acknowledge their answer positively (find something good about their response)\n2. If the answer is incomplete, ask a brief follow-up to help them elaborate\n3. If the answer demonstrates good knowledge, compliment them specifically\n4. Do NOT provide the \"correct\" answer — this is an assessment, not a tutorial\n5. Move naturally to the next question or topic\n6. Keep your response concise (2-3 sentences)\n\nBe encouraging and professional." ).data

/-- `prompts.FALLBACK_PROMPT`, as its `.format` instantiation. -/
def FALLBACK_PROMPT_fmt (message state : PyStr) : PyStr :=
  ( "The candidate has said something that seems off-topic or unclear in the context of a recruitment screening interview.\n\n**Candidate\x27s message**: \"" ).data ++
  message ++
  ( "\"\n**Current conversation state**: " ).data ++
  state ++
  ( "\n\n## Instructions:\n1. Acknowledge their message politely\n2. Gently redirect them back to the screening process\n3. Remind them of what you were discussing or what information you need next\n4. Keep it brief and friendly — no lectures\n\nExamples of good redirections:\n- \"I appreciate you sharing that! To keep our screening on track, could you tell me [next needed info]?\"\n- \"That\x27s an interesting point! However, I\x27m here to help with your screening today. Shall we continue with [current topic]?\"\n- \"I\x27d love to help with that, but my expertise is in recruitment screening. For now, let\x27s focus on [next step].\"\n" ).data

/-- `prompts.CLOSING_PROMPT`, as its `.format` instantiation. -/
def CLOSING_PROMPT_fmt (name positions : PyStr) : PyStr :=
  ( "The screening interview is concluding. Generate a warm closing message for the candidate.\n\n**Candidate Name**: " ).data ++
  name ++
  ( "\n**Position Applied For**: " ).data ++
  positions ++
  ( "\n\n## Include:\n1. Thank them for their time and participation\n2. Summarize what was covered (info collected + technical screening)\n3. Explain next steps:\n   - Their responses will be reviewed by the TalentScout team\n   - A recruiter will reach out within 3-5 business days\n   - They can reach out to careers@talentscout.com for any questions\n4. Wish them well\n\nKeep it warm, professional, and concise." ).data

/-- `prompts.SENTIMENT_PROMPT`, as its `.format` instantiation. -/
def SENTIMENT_PROMPT_fmt (message : PyStr) : PyStr :=
  ( "Analyze the emotional tone of this candidate\x27s message during a recruitment screening interview.\n\n**Message**: \"" ).data ++
  message ++
  ( "\"\n\nClassify the sentiment as ONE of: positive, neutral, negative, excited, nervous, confident\n\nRespond with ONLY a JSON object:\n\x7b\"sentiment\": \"<label>\", \"confidence\": <0.0-1.0>\x7d" ).data

/-- `prompts.EXIT_DETECTED_PROMPT`, as its `.format` instantiation. -/
def EXIT_DETECTED_PROMPT_fmt (name info_status : PyStr) : PyStr :=
  ( "The candidate has indicated they want to end the conversation.\n\n**Candidate Name**: " ).data ++
  name ++
  ( "\n**Information Collected**: " ).data ++
  info_status ++
  ( "\n\nGenerate a brief, graceful closing message:\n1. Thank them for their time\n2. If screening was incomplete, let them know they can return anytime\n3. If screening was complete, mention next steps (team review, 3-5 business days)\n4. Wish them well\n\nKeep it to 2-3 sentences." ).data

/-! ## Model-client facade (`llm_client.py`) -/

/-- A transcript / request message `{role, content}`. -/
structure Msg where
  role : PyStr
  content : PyStr
deriving DecidableEq

/-- The transport boundary (the Groq SDK call inside
`LLMClient.get_chat_response`): an external collaborator, modelled as a
queue of outcomes, one per completion request in call order. An exhausted
queue behaves as a transport failure. -/
abbrev Oracle := List (Except Unit PyStr)

/-- Outcome of the next completion request (an exhausted queue behaves as a
transport failure). -/
def oracleHead : Oracle → Except Unit PyStr
  | [] => Except.error ()
  | r :: _ => r

/-- Remaining queue after one completion request. -/
def oracleTail : Oracle → Oracle
  | [] => []
  | _ :: rest => rest

/-- The fixed apologetic fallback sentence of `LLMClient.get_chat_response`
(the three adjacent source literals, concatenated). -/
def FALLBACK_TEXT : PyStr :=
  ( "I apologize, but I\x27m experiencing a brief technical issue. Could you please repeat your last message? I want to make sure I capture everything correctly. 🙏" ).data

/-- A record of one request made through the facade. The engine's claims
constrain what is passed over this boundary (the transcript slice used as
context; the candidate data used for question generation). -/
inductive CallRecord where
  | chat (messages : List Msg) (system_prompt : PyStr)
  | techq (tech_stack name experience positions : PyStr)
deriving DecidableEq

/-- `LLMClient.get_chat_response`: prepend the system instruction when
present, send, and on any transport error return the fixed apology instead
of propagating. Temperature and token limits are transport parameters with
no effect on the modelled state. Returns (response, remaining oracle,
requests made). -/
def get_chat_response (o : Oracle) (messages : List Msg)
    (system_prompt : PyStr) : PyStr × Oracle × List CallRecord :=
  ((match oracleHead o with
    | .ok t => t
    | .error _ => FALLBACK_TEXT),
   oracleTail o, [CallRecord.chat messages system_prompt])

/-- `LLMClient.analyze_sentiment`: format the sentiment prompt, call, parse
the strict JSON reply; on any failure (unparseable reply, missing key,
non-string label rejected by the Pydantic model) return the neutral
default. Only the label is kept — the engine never reads the confidence. -/
def llm_analyze_sentiment (o : Oracle) (message : PyStr) :
    PyStr × Oracle × List CallRecord :=
  let prompt := SENTIMENT_PROMPT_fmt message
  let r := get_chat_response o [Msg.mk ("user".data) prompt] []
  ((match jsonLoads (pyStrip r.1) with
    | some j =>
      match j.getKey ("sentiment".data) with
      | some (.str s) => s
      | some _ => ("neutral".data)
      | none => ("neutral".data)
    | none => ("neutral".data)),
   r.2.1, r.2.2)

/-- `LLMClient.generate_technical_questions`. -/
def llm_generate_technical_questions (o : Oracle)
    (tech_stack name experience positions : PyStr) :
    PyStr × Oracle × List CallRecord :=
  let prompt := TECH_QUESTIONS_PROMPT_fmt name experience positions tech_stack
  let r := get_chat_response o [Msg.mk ("user".data) prompt] []
  (r.1, r.2.1, CallRecord.techq tech_stack name experience positions :: r.2.2)

/-! ## Conversation engine (`conversation.py`) -/

/-- `models.ConversationState`. -/
inductive ConversationState where
  | GREETING
  | GATHERING_INFO
  | TECH_QUESTIONS
  | ANSWERING_QUESTIONS
  | CLOSING
  | ENDED
deriving DecidableEq

/-- The `.value` string of the state enum. -/
def ConversationState.value : ConversationState → PyStr
  | .GREETING => ("greeting".data)
  | .GATHERING_INFO => ("gathering_info".data)
  | .TECH_QUESTIONS => ("tech_questions".data)
  | .ANSWERING_QUESTIONS => ("answering_questions".data)
  | .CLOSING => ("closing".data)
  | .ENDED => ("ended".data)

/-- The mutable fields of `ConversationManager`. -/
structure ManagerState where
  state : ConversationState
  candidate : CandidateInfo
  messages : List Msg
  technical_questions_asked : Bool
  current_sentiment : PyStr
  raw_tech_questions : PyStr
deriving DecidableEq

/-- `ConversationManager.__init__`: the fresh engine. -/
def initManager : ManagerState :=
  { state := .GREETING, candidate := emptyCandidate, messages := [],
    technical_questions_asked := false,
    current_sentiment := ("neutral".data), raw_tech_questions := [] }

/-- `', '.join(...)`. -/
def joinComma : List PyStr → PyStr
  | [] => []
  | [x] => x
  | x :: xs => x ++ (", ".data) ++ joinComma xs

/-- `'\n'.join(...)`. -/
def joinNl : List PyStr → PyStr
  | [] => []
  | [x] => x
  | x :: xs => x ++ '\n' :: joinNl xs

/-- Python `repr` of the filled-fields dict, as interpolated by the
f-string in `_build_system_prompt` (naive quoting — this text feeds only
the system prompt and is never inspected by a claim). -/
def dictRepr (l : List (PyStr × PyStr)) : PyStr :=
  '\x7b' :: (joinComma (l.map (fun kv =>
    '\x27' :: kv.1 ++ ('\x27' :: (": ".data)) ++ '\x27' :: kv.2 ++ ['\x27']))
    ++ ['\x7d'])

/-- The field label lines of `CandidateInfo.get_summary`. -/
def summaryLabels : List (PyStr × PyStr) :=
  [(fldFullName, ("👤 Name".data)), (fldEmail, ("📧 Email".data)),
   (fldPhone, ("📱 Phone".data)), (fldYears, ("📅 Experience".data)),
   (fldPositions, ("💼 Position(s)".data)), (fldLocation, ("📍 Location".data)),
   (fldTechStack, ("🛠️ Tech Stack".data))]

/-- `CandidateInfo.get_summary()`. -/
def CandidateInfo.get_summary (c : CandidateInfo) : PyStr :=
  joinNl (summaryLabels.map (fun kv =>
    match c.get kv.1 with
    | some v =>
      if v.isEmpty then ("**".data) ++ kv.2 ++ ("**: _Pending..._".data)
      else ("**".data) ++ kv.2 ++ ("**: ".data) ++ v
    | none => ("**".data) ++ kv.2 ++ ("**: _Pending..._".data)))

/-- The `state_descriptions` mapping of `_build_system_prompt`. -/
def stateDescription (st : ManagerState) : PyStr :=
  match st.state with
  | .GREETING =>
    ("You are greeting the candidate for the first time. Welcome them and ask for their name.".data)
  | .GATHERING_INFO =>
    ("You are collecting candidate information. Missing fields: ".data) ++
    joinComma st.candidate.get_missing_fields ++
    (". Collected: ".data) ++ dictRepr st.candidate.get_filled_fields
  | .TECH_QUESTIONS =>
    ("You have collected all candidate info and are now presenting technical screening questions based on their tech stack.".data)
  | .ANSWERING_QUESTIONS =>
    ("The candidate is answering technical questions. Evaluate their responses and guide them through the remaining questions.".data)
  | .CLOSING =>
    ("The screening is complete. Thank the candidate and inform them about next steps.".data)
  | .ENDED => ("The conversation has ended.".data)

/-- `ConversationManager._build_system_prompt`. -/
def build_system_prompt (st : ManagerState) : PyStr :=
  SYSTEM_PROMPT_fmt (stateDescription st) st.candidate.get_summary

/-- `ConversationManager.generate_greeting`: one-shot; advances
Greeting → GatheringInfo and appends the assistant reply. -/
def generate_greeting (st : ManagerState) (o : Oracle) :
    PyStr × ManagerState × Oracle × List CallRecord :=
  let r := get_chat_response o [Msg.mk ("user".data) GREETING_PROMPT]
    (build_system_prompt st)
  (r.1,
   { st with
     state := .GATHERING_INFO,
     messages := st.messages ++ [Msg.mk ("assistant".data) r.1] },
   r.2.1, r.2.2)

/-- Python `x or default` on an optional text field (`None` and the empty
string both fall back). -/
def orDefault (v : Option PyStr) (d : PyStr) : PyStr :=
  match v with
  | some s => if s.isEmpty then d else s
  | none => d

/-- The `field_status` entries of `_handle_info_gathering`
(`value if value else "❌ Not yet collected"`). -/
def fieldStatus (c : CandidateInfo) (f : PyStr) : PyStr :=
  match c.get f with
  | some v => if v.isEmpty then ("❌ Not yet collected".data) else v
  | none => ("❌ Not yet collected".data)

/-- The extraction-merge loop of `_handle_info_gathering`: write each
truthy, non-"null" value of a model field to the profile only when the
field is currently unset (`if current is None`). -/
def write_extracted (c : CandidateInfo) :
    List (PyStr × JValue) → CandidateInfo
  | [] => c
  | (f, v) :: rest =>
    let c2 :=
      if v.truthy && !v.isNullStr && isCandidateField f then
        match c.get f with
        | none => c.set f v.pyStr
        | some _ => c
      else c
    write_extracted c2 rest

/-- `ConversationManager._generate_tech_questions`: defaults applied for
any still-missing of tech stack / name / experience / positions. -/
def generate_tech_questions_step (st : ManagerState) (o : Oracle) :
    PyStr × Oracle × List CallRecord :=
  llm_generate_technical_questions o
    (orDefault st.candidate.tech_stack ("General Programming".data))
    (orDefault st.candidate.full_name ("Candidate".data))
    (orDefault st.candidate.years_of_experience ("Unknown".data))
    (orDefault st.candidate.desired_positions ("Software Engineer".data))

/-- The structured-extraction merge of `_handle_info_gathering` (lines
137-149): if the reply carries a (truthy) parsed block with key
"extracted", merge its fields first-write-wins, and transition to
TechQuestions when the block reports all-collected or the merged profile is
complete. -/
def extract_merge (st : ManagerState) (response : PyStr) : ManagerState :=
  match extract_json_from_response response with
  | some j =>
    if j.truthy && j.hasKey ("extracted".data) then
      let cand2 := write_extracted st.candidate
        (((j.getKey ("extracted".data)).getD .null).items)
      let stW := { st with candidate := cand2 }
      if ((j.getKey ("all_collected".data)).elim false JValue.truthy)
          || cand2.is_complete then
        { stW with state := .TECH_QUESTIONS }
      else stW
    else st
  | none => st

/-- The completeness heuristic of `_handle_info_gathering` (lines 150-152):
if the profile looks complete and the phase has not moved yet, transition
to TechQuestions. -/
def heuristic_step (s : ManagerState) : ManagerState :=
  if s.candidate.is_complete && !(s.state == ConversationState.TECH_QUESTIONS)
  then { s with state := .TECH_QUESTIONS }
  else s

/-- `ConversationManager._handle_info_gathering`. -/
def handle_info_gathering (st : ManagerState) (o : Oracle)
    (_user_message : PyStr) : PyStr × ManagerState × Oracle × List CallRecord :=
  let prompt := INFO_GATHERING_PROMPT_fmt
    (fieldStatus st.candidate fldFullName) (fieldStatus st.candidate fldEmail)
    (fieldStatus st.candidate fldPhone) (fieldStatus st.candidate fldYears)
    (fieldStatus st.candidate fldPositions)
    (fieldStatus st.candidate fldLocation)
    (fieldStatus st.candidate fldTechStack)
  let r := get_chat_response o st.messages
    (build_system_prompt st ++ ("\n\n".data) ++ prompt)
  let response := r.1
  let st3 := heuristic_step (extract_merge st response)
  let clean := strip_json_from_response response
  if st3.state == .TECH_QUESTIONS && !st3.technical_questions_asked then
    let rq := generate_tech_questions_step st3 r.2.1
    (pyRstrip clean ++ ("\n\n".data) ++ rq.1,
     { st3 with
       raw_tech_questions := rq.1,
       technical_questions_asked := true,
       state := .ANSWERING_QUESTIONS },
     rq.2.1, r.2.2 ++ rq.2.2)
  else (clean, st3, r.2.1, r.2.2)

/-- `ConversationManager._handle_tech_interaction`: full transcript as
context, no state change. -/
def handle_tech_interaction (st : ManagerState) (o : Oracle)
    (_user_message : PyStr) : PyStr × ManagerState × Oracle × List CallRecord :=
  let r := get_chat_response o st.messages (build_system_prompt st)
  (r.1, st, r.2.1, r.2.2)

/-- `ConversationManager._handle_closing`. -/
def handle_closing (st : ManagerState) (o : Oracle) :
    PyStr × ManagerState × Oracle × List CallRecord :=
  let prompt := CLOSING_PROMPT_fmt
    (orDefault st.candidate.full_name ("there".data))
    (orDefault st.candidate.desired_positions ("the position".data))
  let r := get_chat_response o
    [Msg.mk ("user".data) prompt] (build_system_prompt st)
  (r.1, { st with state := .ENDED }, r.2.1, r.2.2)

/-- `ConversationManager._handle_exit`. -/
def handle_exit (st : ManagerState) (o : Oracle) :
    PyStr × ManagerState × Oracle × List CallRecord :=
  let info_status :=
    if st.candidate.is_complete then ("Complete".data)
    else ("Partial (".data) ++
      (Nat.repr st.candidate.get_completion_percentage).data ++
      ("% complete)".data)
  let prompt := EXIT_DETECTED_PROMPT_fmt
    (orDefault st.candidate.full_name ("there".data)) info_status
  let r := get_chat_response o
    [Msg.mk ("user".data) prompt] (build_system_prompt st)
  (r.1, { st with state := .ENDED }, r.2.1, r.2.2)

/-- `ConversationManager._handle_fallback`: the context passed to the model
is `self.messages[-6:]` — the last six transcript entries. -/
def handle_fallback (st : ManagerState) (o : Oracle) (user_message : PyStr) :
    PyStr × ManagerState × Oracle × List CallRecord :=
  let prompt := FALLBACK_PROMPT_fmt user_message st.state.value
  let r := get_chat_response o
    (st.messages.drop (st.messages.length - 6))
    (build_system_prompt st ++ ("\n\n".data) ++ prompt)
  (r.1, st, r.2.1, r.2.2)

/-- `ConversationManager._analyze_sentiment` (the facade call never raises,
so the label is always stored as the running mood). -/
def analyze_sentiment_step (st : ManagerState) (o : Oracle) (message : PyStr) :
    PyStr × ManagerState × Oracle × List CallRecord :=
  let r := llm_analyze_sentiment o message
  (r.1, { st with current_sentiment := r.1 }, r.2.1, r.2.2)

/-- The state dispatch of `process_message` (the `if`/`elif` chain on
`self.state`: GatheringInfo → info handler; TechQuestions and
AnsweringQuestions → tech handler; Closing → closing; anything else —
Greeting, Ended — → fallback). -/
def dispatch (s : ConversationState) (st : ManagerState) (o : Oracle)
    (m : PyStr) : PyStr × ManagerState × Oracle × List CallRecord :=
  match s with
  | .GATHERING_INFO => handle_info_gathering st o m
  | .TECH_QUESTIONS => handle_tech_interaction st o m
  | .ANSWERING_QUESTIONS => handle_tech_interaction st o m
  | .CLOSING => handle_closing st o
  | _ => handle_fallback st o m

/-- `ConversationManager.process_message`: sanitize, append the user entry,
short-circuit on exit intent (returning the cached mood), otherwise tag
sentiment, dispatch by state, append the assistant reply. Returns
((response, sentiment label), new state, remaining oracle, requests). -/
def process_message (st : ManagerState) (o : Oracle) (user_message : PyStr) :
    (PyStr × PyStr) × ManagerState × Oracle × List CallRecord :=
  let m := sanitize_input user_message
  let st1 := { st with messages := st.messages ++ [Msg.mk ("user".data) m] }
  if check_exit_intent m EXIT_KEYWORDS then
    let r := handle_exit st1 o
    ((r.1, r.2.1.current_sentiment), r.2.1, r.2.2.1, r.2.2.2)
  else
    let rs := analyze_sentiment_step st1 o m
    let rd := dispatch rs.2.1.state rs.2.1 rs.2.2.1 m
    ((rd.1, rs.1),
     { rd.2.1 with
       messages := rd.2.1.messages ++ [Msg.mk ("assistant".data) rd.1] },
     rd.2.2.1, rs.2.2.2 ++ rd.2.2.2)

/-- A whole conversation tail: fold a sequence of messages (each turn with
its own transport outcomes) through `process_message`. -/
def runMessages (st : ManagerState) : List (Oracle × PyStr) → ManagerState
  | [] => st
  | s :: rest => runMessages (process_message st s.1 s.2).2.1 rest

/-- Engine states reachable in the application lifecycle: a fresh manager,
the one-shot greeting (`app.py` generates it exactly once per fresh
manager), then any sequence of processed messages. -/
inductive Reachable : ManagerState → Prop where
  | init : Reachable initManager
  | greet (o : Oracle) : Reachable (generate_greeting initManager o).2.1
  | step {s : ManagerState} (o : Oracle) (m : PyStr) :
      Reachable s → Reachable (process_message s o m).2.1

/-- The specification's derived value
`completionPercentage() = round(100 * filledCount / totalFields)`: exact
rounding of the rational `filled*100/total` (written over naturals;
`filled*100/7` is never a half-integer, so the tie-breaking rule is
irrelevant). -/
def specRoundPct (filled total : Nat) : Nat :=
  (2 * (filled * 100) + total) / (2 * total)

/-- A profile with exactly two filled fields. -/
def candTwo : CandidateInfo :=
  { emptyCandidate with
    full_name := some ("Ada".data), email := some ("a@b.co".data) }

/-- 1 when an optional field is filled. -/
def cnt (o : Option PyStr) : Nat := if o.isSome then 1 else 0

/-- The conversation context carried by a recorded request. -/
def chatMsgs : CallRecord → List Msg
  | .chat ms _ => ms
  | .techq _ _ _ _ => []

/-- The specification's "last 3 transcript entries". -/
def lastN (n : Nat) (l : List Msg) : List Msg := l.drop (l.length - n)

/-- A transcript with seven distinct entries, mid-conversation. -/
def stSeven : ManagerState :=
  { state := ConversationState.ENDED, candidate := emptyCandidate,
    messages :=
      [Msg.mk ("assistant".data) ("m1".data),
       Msg.mk ("user".data) ("m2".data),
       Msg.mk ("assistant".data) ("m3".data),
       Msg.mk ("user".data) ("m4".data),
       Msg.mk ("assistant".data) ("m5".data),
       Msg.mk ("user".data) ("m6".data),
       Msg.mk ("assistant".data) ("m7".data)],
    technical_questions_asked := false,
    current_sentiment := ("neutral".data), raw_tech_questions := [] }

/-- `true` when the first character (if any) is not whitespace. -/
def headNotWs (s : PyStr) : Bool :=
  match s with
  | [] => true
  | c :: _ => !isPySpace c

/-- Whitespace-normalized text: every whitespace character is a single
space followed by a non-whitespace character (the shape produced by
`collapseWs`). -/
def wsNorm : PyStr → Bool
  | [] => true
  | c :: r => (if isPySpace c then c == ' ' && headNotWs r else true) && wsNorm r

/-- The repeating block "a ", `n` times. -/
def altAA (n : Nat) : PyStr := (List.replicate n ['a', ' ']).join

/-- The same with one more trailing "a" — stripped, collapsed text of odd
length `2n+1`. -/
def aaOdd (n : Nat) : PyStr := altAA n ++ ['a']

/-- The concrete input "a " repeated 1001 times (2002 characters). -/
def longAlt : PyStr := altAA 1001

/-- The reply used by the C1 witness: conversational text followed by a
fenced structured block reporting all-collected. -/
def respW : PyStr :=
  ( "Thanks!\n```json\n\x7b\"extracted\": \x7b\"full_name\": \"Ada\"\x7d, \"all_collected\": true\x7d\n```" ).data

/-- The parse of `respW`'s structured block. -/
def jW : JValue :=
  JValue.obj
    [(("extracted".data), JValue.obj
        [(("full_name".data), JValue.str ("Ada".data))]),
     (("all_collected".data), JValue.bool true)]

/-- A fenced JSON block in the shape matched by the fenced regex: the
literal ` ```json `, a newline, a braced group with the given body, a
newline, closing backticks, then trailing text. -/
def fencedBlock (body post : PyStr) : PyStr :=
  TICKJSON ++ ('\n' :: '{' :: (body ++ ('}' :: '\n' :: (TICKS ++ post))))

/-- The concrete response of the C8 counterexample: a well-formed fenced
`extracted` payload followed by prose that itself contains an opening
brace. -/
def respC8 : PyStr :=
  ("```json\n\x7b\"extracted\": \x7b\"full_name\": \"Ada\"\x7d\x7d\n``` leftover \x7b").data

/-! ## Theorems -/

theorem length_dropWhile_le (p : Char → Bool) (l : List Char) :
    (l.dropWhile p).length ≤ l.length := by
  induction l with
  | nil => simp
  | cons c r ih =>
    by_cases h : p c <;> simp [List.dropWhile_cons, h] <;> omega

theorem lazyCloseFenced_post_le (accRev : PyStr) :
    ∀ s g post, lazyCloseFenced accRev s = some (g, post) →
      post.length ≤ s.length := by
  intro s
  induction s generalizing accRev with
  | nil => intro g post h; simp [lazyCloseFenced] at h
  | cons c r ih =>
    intro g post h
    simp only [lazyCloseFenced] at h
    by_cases hc : (c == '}' && fencedCloseOk r) = true
    · simp [hc] at h
      have hpost : post = afterTicks r := h.2.symm
      subst hpost
      have h1 : (afterTicks r).length ≤ (r.dropWhile isPySpace).length := by
        simp [afterTicks]
      have h2 := length_dropWhile_le isPySpace r
      simp only [List.length_cons]
      omega
    · simp [hc] at h
      have := ih (c :: accRev) g post h
      simp only [List.length_cons]
      omega

theorem fencedComplete_post_le (s g post : PyStr)
    (h : fencedComplete s = some (g, post)) : post.length ≤ s.length := by
  unfold fencedComplete at h
  cases hdw : s.dropWhile isPySpace with
  | nil => rw [hdw] at h; simp at h
  | cons c r =>
    rw [hdw] at h
    by_cases hc : c = '{'
    · subst hc
      simp at h
      have h1 := lazyCloseFenced_post_le [] r g post h
      have h2 : r.length ≤ (s.dropWhile isPySpace).length := by
        rw [hdw]; simp
      have h3 := length_dropWhile_le isPySpace s
      omega
    · simp [hc] at h

theorem splitAtCharFirst_post_lt (ch : Char) :
    ∀ s a b, splitAtCharFirst ch s = some (a, b) → b.length < s.length := by
  intro s
  induction s with
  | nil => intro a b h; simp [splitAtCharFirst] at h
  | cons c r ih =>
    intro a b h
    simp only [splitAtCharFirst] at h
    by_cases hc : (c == ch) = true
    · simp [hc] at h
      have : b = r := h.2.symm
      subst this
      simp
    · simp [hc] at h
      obtain ⟨p, hp, hpa⟩ := h
      have := ih p b hp
      simp only [List.length_cons]
      omega

theorem rawTry_post_lt (s m post : PyStr) (h : rawTry s = some (m, post)) :
    post.length < s.length := by
  unfold rawTry at h
  split at h
  · rename_i rest
    dsimp only at h
    split at h
    · split at h
      · rename_i inner heqd
        split at h
        · rename_i c1 r1 heq1
          split at h
          · rename_i c2 p2 heq2
            simp only [Option.some.injEq, Prod.mk.injEq] at h
            have hb : post = p2 := h.2.symm
            subst hb
            have l1 := splitAtCharFirst_post_lt '}' inner c1 r1 heq1
            have l2 := splitAtCharFirst_post_lt '}' r1 c2 post heq2
            have l3 := length_dropWhile_le (fun c => !isBrace c) rest
            rw [heqd] at l3
            simp only [List.length_cons] at l3 ⊢
            omega
          · cases h
        · cases h
      · cases h
    · cases h
  · cases h

theorem cnt_le_one (o : Option PyStr) : cnt o ≤ 1 := by
  cases o <;> simp [cnt]

theorem cnt_some (v : PyStr) : cnt (some v) = 1 := rfl

theorem filled_len (f1 f2 f3 f4 f5 f6 f7 : Option PyStr) :
    (CandidateInfo.mk f1 f2 f3 f4 f5 f6 f7).get_filled_fields.length =
      cnt f1 + cnt f2 + cnt f3 + cnt f4 + cnt f5 + cnt f6 + cnt f7 := by
  cases f1 <;> cases f2 <;> cases f3 <;> cases f4 <;> cases f5 <;>
    cases f6 <;> cases f7 <;>
    simp [CandidateInfo.get_filled_fields, CandidateInfo.dump, cnt]

theorem complete_iff_filled (f1 f2 f3 f4 f5 f6 f7 : Option PyStr) :
    (CandidateInfo.mk f1 f2 f3 f4 f5 f6 f7).is_complete = true ↔
      (CandidateInfo.mk f1 f2 f3 f4 f5 f6 f7).get_filled_fields.length = 7 := by
  cases f1 <;> cases f2 <;> cases f3 <;> cases f4 <;> cases f5 <;>
    cases f6 <;> cases f7 <;>
    simp [CandidateInfo.get_filled_fields, CandidateInfo.dump,
      CandidateInfo.is_complete, CandidateInfo.get_missing_fields]

/-- Helper: one `set` never decreases the number of filled fields. -/
theorem filled_length_le_set (c : CandidateInfo) (f : PyStr) (v : PyStr) :
    c.get_filled_fields.length ≤ (c.set f v).get_filled_fields.length := by
  obtain ⟨f1, f2, f3, f4, f5, f6, f7⟩ := c
  have b1 := cnt_le_one f1
  have b2 := cnt_le_one f2
  have b3 := cnt_le_one f3
  have b4 := cnt_le_one f4
  have b5 := cnt_le_one f5
  have b6 := cnt_le_one f6
  have b7 := cnt_le_one f7
  unfold CandidateInfo.set
  split_ifs <;> simp only [filled_len, cnt_some] <;> omega

theorem dump_length (c : CandidateInfo) : c.dump.length = 7 := by
  simp [CandidateInfo.dump]

/-- C6 counterexample: with exactly 2 of the 7 fields filled,
`get_completion_percentage` computes `int(100*2/7) = 28`, while the claimed
`round(100*2/7)` is 29 — the code truncates, it does not round. -/
theorem completion_percentage_round_counterexample :
    candTwo.get_filled_fields.length = 2 ∧
    candTwo.get_completion_percentage = 28 ∧
    specRoundPct 2 7 = 29 ∧
    candTwo.get_completion_percentage ≠
      specRoundPct candTwo.get_filled_fields.length 7 := by
  decide

/-- C6 (amended): `get_completion_percentage()` equals the floor (Python
`int` truncation) of `100 * filledCount / 7`; it is monotonically
non-decreasing as fields are set; and it equals exactly 100 if and only if
`is_complete()` holds. (The original claim's `round` fails at 2 filled
fields — see the counterexample.) -/
theorem completion_percentage_floor_monotone_complete (c : CandidateInfo)
    (f : PyStr) (v : PyStr) :
    c.get_completion_percentage = c.get_filled_fields.length * 100 / 7 ∧
    c.get_completion_percentage ≤ (c.set f v).get_completion_percentage ∧
    (c.get_completion_percentage = 100 ↔ c.is_complete = true) := by
  refine ⟨?_, ?_, ?_⟩
  · simp [CandidateInfo.get_completion_percentage, dump_length]
  · simp only [CandidateInfo.get_completion_percentage, dump_length]
    exact Nat.div_le_div_right
      (Nat.mul_le_mul_right _ (filled_length_le_set c f v))
  · obtain ⟨f1, f2, f3, f4, f5, f6, f7⟩ := c
    have b1 := cnt_le_one f1
    have b2 := cnt_le_one f2
    have b3 := cnt_le_one f3
    have b4 := cnt_le_one f4
    have b5 := cnt_le_one f5
    have b6 := cnt_le_one f6
    have b7 := cnt_le_one f7
    rw [complete_iff_filled]
    simp only [CandidateInfo.get_completion_percentage, dump_length,
      filled_len]
    omega

/-! ### C3: first-write-wins of the extraction merge -/

theorem get_set_ne (c : CandidateInfo) (f g v : PyStr) (hne : g ≠ f) :
    (c.set f v).get g = c.get g := by
  unfold CandidateInfo.set
  split_ifs
  all_goals unfold CandidateInfo.get
  all_goals split_ifs <;> simp_all

theorem get_set_same (c : CandidateInfo) (f v : PyStr)
    (hf : isCandidateField f = true) : (c.set f v).get f = some v := by
  simp only [isCandidateField, CANDIDATE_FIELD_NAMES, List.contains,
    List.elem_eq_mem, List.mem_cons, List.not_mem_nil, or_false,
    decide_eq_true_eq] at hf
  rcases hf with h | h | h | h | h | h | h <;> subst h <;>
    simp [CandidateInfo.set, CandidateInfo.get, fldFullName, fldEmail,
      fldPhone, fldYears, fldPositions, fldLocation, fldTechStack]

/-- A single merge step never disturbs a field that already holds a value. -/
theorem write_step_preserves (c : CandidateInfo) (g : PyStr) (v : JValue)
    (f : PyStr) (w : PyStr) (h : c.get f = some w) :
    ((if v.truthy && !v.isNullStr && isCandidateField g then
        match c.get g with
        | none => c.set g v.pyStr
        | some _ => c
      else c).get f) = some w := by
  split_ifs with hcond
  · cases hg : c.get g with
    | none =>
      have hne : f ≠ g := by
        intro he
        rw [he, hg] at h
        cases h
      rw [get_set_ne c g f v.pyStr hne]
      exact h
    | some _ => exact h
  · exact h

/-- First-write-wins across a whole extracted mapping. -/
theorem write_extracted_preserves (items : List (PyStr × JValue)) :
    ∀ (c : CandidateInfo) (f : PyStr) (w : PyStr), c.get f = some w →
      (write_extracted c items).get f = some w := by
  induction items with
  | nil => intro c f w h; simpa [write_extracted] using h
  | cons fv rest ih =>
    intro c f w h
    obtain ⟨g, v⟩ := fv
    simp only [write_extracted]
    exact ih _ f w (write_step_preserves c g v f w h)

/-- The merge pipeline never disturbs an already-set field. -/
theorem gather_merge_candidate_preserves (st : ManagerState) (resp : PyStr)
    (f : PyStr) (w : PyStr) (h : st.candidate.get f = some w) :
    (heuristic_step (extract_merge st resp)).candidate.get f = some w := by
  have hE : (extract_merge st resp).candidate.get f = some w := by
    unfold extract_merge
    cases hext : extract_json_from_response resp with
    | none => exact h
    | some j =>
      dsimp only
      split
      · split <;> exact write_extracted_preserves _ _ _ _ h
      · exact h
  unfold heuristic_step
  split <;> exact hE

/-- The info-gathering handler never disturbs an already-set field. -/
theorem handle_info_gathering_preserves_field (st : ManagerState)
    (o : Oracle) (m : PyStr) (f : PyStr) (w : PyStr)
    (h : st.candidate.get f = some w) :
    (handle_info_gathering st o m).2.1.candidate.get f = some w := by
  unfold handle_info_gathering
  dsimp only
  split
  · exact gather_merge_candidate_preserves st _ f w h
  · exact gather_merge_candidate_preserves st _ f w h

/-- No handler disturbs an already-set profile field. -/
theorem dispatch_preserves_field (s : ConversationState) (st : ManagerState)
    (o : Oracle) (m : PyStr) (f : PyStr) (w : PyStr)
    (h : st.candidate.get f = some w) :
    (dispatch s st o m).2.1.candidate.get f = some w := by
  cases s <;>
    first
      | exact handle_info_gathering_preserves_field st o m f w h
      | exact h

/-- One processed message never disturbs an already-set profile field. -/
theorem process_message_preserves_field (st : ManagerState) (o : Oracle)
    (m : PyStr) (f : PyStr) (w : PyStr) (h : st.candidate.get f = some w) :
    (process_message st o m).2.1.candidate.get f = some w := by
  unfold process_message
  dsimp only
  split
  · exact h
  · exact dispatch_preserves_field _ _ _ _ f w h

/-- C3 counterexample: the empty string is a non-null value distinct from
the string "null", yet — being falsy — the extraction loop does not write
it to an unset field, contradicting the claimed "written if and only if
currently unset". -/
theorem extraction_write_iff_counterexample :
    emptyCandidate.get fldFullName = none ∧
    (JValue.str []).isNullStr = false ∧
    (write_extracted emptyCandidate [(fldFullName, JValue.str [])]).get
      fldFullName = none := by
  decide

/-- C3 (amended): during extraction a profile field is written if and only
if its value is truthy (non-null, non-empty, non-false, non-zero), not the
string "null", and the field is currently unset; consequently a field once
set is never overwritten — by any later extracted mapping and by any later
sequence of processed messages. -/
theorem extraction_first_write_wins :
    (∀ (c : CandidateInfo) (f : PyStr) (v : JValue),
      isCandidateField f = true →
      (write_extracted c [(f, v)]).get f =
        if v.truthy && !v.isNullStr && (c.get f).isNone
        then some v.pyStr else c.get f) ∧
    (∀ (items : List (PyStr × JValue)) (c : CandidateInfo) (f : PyStr)
      (w : PyStr), c.get f = some w →
      (write_extracted c items).get f = some w) ∧
    (∀ (steps : List (Oracle × PyStr)) (st : ManagerState) (f : PyStr)
      (w : PyStr), st.candidate.get f = some w →
      (runMessages st steps).candidate.get f = some w) := by
  refine ⟨?_, ?_, ?_⟩
  · intro c f v hf
    cases htr : v.truthy <;> cases hnl : v.isNullStr <;>
      cases hg : c.get f <;>
      simp [write_extracted, htr, hnl, hf, hg,
        get_set_same c f v.pyStr hf]
  · intro items c f w h
    exact write_extracted_preserves items c f w h
  · intro steps
    induction steps with
    | nil => intro st f w h; simpa [runMessages] using h
    | cons s rest ih =>
      intro st f w h
      simp only [runMessages]
      exact ih _ f w (process_message_preserves_field st s.1 s.2 f w h)

/-- C3 witness: a set field survives one more extraction and one more
processed message. -/
theorem extraction_first_write_wins_witness :
    (write_extracted candTwo
      [(fldFullName, JValue.str ("Bob".data))]).get fldFullName =
        some ("Ada".data) ∧
    (runMessages
      { state := ConversationState.GATHERING_INFO, candidate := candTwo,
        messages := [], technical_questions_asked := false,
        current_sentiment := ("neutral".data), raw_tech_questions := [] }
      [([], ("hello there").data)]).candidate.get fldFullName =
        some ("Ada".data) := by
  constructor
  · exact
      (extraction_first_write_wins.1 candTwo fldFullName
        (JValue.str ("Bob".data)) (by decide)).trans (by decide)
  · exact extraction_first_write_wins.2.2 [([], ("hello there").data)] _
      fldFullName ("Ada".data) (by decide)

/-! ### C2: the exit short-circuit -/

/-- C2: a message with exit intent, from any phase, moves the engine to
Ended and returns the previously-cached sentiment mood; nothing else
changes — the only transcript change is the appended user entry, no
profile field is mutated, and no phase handler runs (the single model
request is the exit farewell prompt). -/
theorem exit_short_circuit (st : ManagerState) (o : Oracle) (um : PyStr)
    (hex : check_exit_intent (sanitize_input um) EXIT_KEYWORDS = true) :
    (process_message st o um).2.1.state = ConversationState.ENDED ∧
    (process_message st o um).1.2 = st.current_sentiment ∧
    (process_message st o um).2.1.candidate = st.candidate ∧
    (process_message st o um).2.1.messages =
      st.messages ++ [Msg.mk ("user".data) (sanitize_input um)] ∧
    (process_message st o um).2.1.technical_questions_asked =
      st.technical_questions_asked ∧
    (process_message st o um).2.1.current_sentiment =
      st.current_sentiment ∧
    (process_message st o um).2.1.raw_tech_questions =
      st.raw_tech_questions ∧
    (process_message st o um).2.2.2.length = 1 := by
  unfold process_message
  simp only [hex, if_true]
  exact ⟨rfl, rfl, rfl, rfl, rfl, rfl, rfl, rfl⟩

/-- C2 witness: "bye" from an Ended-bound state. -/
theorem exit_short_circuit_witness :
    (process_message
      { state := ConversationState.GATHERING_INFO, candidate := candTwo,
        messages := [], technical_questions_asked := false,
        current_sentiment := ("positive".data), raw_tech_questions := [] }
      [Except.ok ("farewell".data)] (("bye").data)).2.1.state =
        ConversationState.ENDED ∧
    (process_message
      { state := ConversationState.GATHERING_INFO, candidate := candTwo,
        messages := [], technical_questions_asked := false,
        current_sentiment := ("positive".data), raw_tech_questions := [] }
      [Except.ok ("farewell".data)] (("bye").data)).1.2 =
        ("positive".data) := by
  refine ⟨(exit_short_circuit _ _ _ (by decide)).1,
    ((exit_short_circuit _ _ _ (by decide)).2.1).trans (by decide)⟩

/-! ### C10: processing after Ended dispatches to the fallback handler -/

/-- C10: a non-exit message processed while the phase is already Ended does
not fail: the fallback handler is dispatched (two model requests: the
sentiment classification, then the fallback redirect over the last six
transcript entries), the phase remains Ended, and the sanitized user
message and the handler's response are appended to the transcript. -/
theorem ended_message_falls_back (st : ManagerState) (o : Oracle)
    (um : PyStr) (hst : st.state = ConversationState.ENDED)
    (hex : check_exit_intent (sanitize_input um) EXIT_KEYWORDS = false) :
    (process_message st o um).2.1.state = ConversationState.ENDED ∧
    (process_message st o um).2.1.candidate = st.candidate ∧
    (process_message st o um).2.1.messages =
      (st.messages ++ [Msg.mk ("user".data) (sanitize_input um)]) ++
        [Msg.mk ("assistant".data) (process_message st o um).1.1] ∧
    (process_message st o um).2.2.2 =
      [CallRecord.chat
        [Msg.mk ("user".data) (SENTIMENT_PROMPT_fmt (sanitize_input um))]
        [],
       CallRecord.chat
        ((st.messages ++ [Msg.mk ("user".data) (sanitize_input um)]).drop
          ((st.messages ++
            [Msg.mk ("user".data) (sanitize_input um)]).length - 6))
        (build_system_prompt
          { st with messages :=
              st.messages ++ [Msg.mk ("user".data) (sanitize_input um)] }
          ++ ("\n\n".data) ++
          FALLBACK_PROMPT_fmt (sanitize_input um)
            ConversationState.ENDED.value)] := by
  unfold process_message
  simp only [hex, Bool.false_eq_true, if_false]
  unfold dispatch analyze_sentiment_step
  dsimp only
  rw [hst]
  refine ⟨?_, ?_, ?_, ?_⟩ <;> rfl

/-- C10 witness: an off-topic message after the conversation has ended. -/
theorem ended_message_falls_back_witness :
    (process_message
      { state := ConversationState.ENDED, candidate := emptyCandidate,
        messages := [], technical_questions_asked := false,
        current_sentiment := ("neutral".data), raw_tech_questions := [] }
      [] (("what about the weather?").data)).2.1.state =
        ConversationState.ENDED := by
  exact (ended_message_falls_back _ [] _ rfl (by decide)).1

/-! ### C5: the fallback handler's conversation context -/

/-- C5 counterexample: on a seven-entry transcript the fallback handler
passes six entries of context — `messages[-6:]`, three exchanges — not the
claimed three entries. -/
theorem fallback_context_counterexample :
    (handle_fallback stSeven [] (("hm?").data)).2.2.2.length = 1 ∧
    (chatMsgs ((handle_fallback stSeven [] (("hm?").data)).2.2.2.headD
      (CallRecord.techq [] [] [] []))).length = 6 ∧
    chatMsgs ((handle_fallback stSeven [] (("hm?").data)).2.2.2.headD
      (CallRecord.techq [] [] [] [])) ≠ lastN 3 stSeven.messages := by
  refine ⟨rfl, rfl, ?_⟩
  decide

/-- C5 (amended): the fallback handler passes exactly the last six
transcript entries (three exchanges) to the model as conversation context,
and leaves the engine state — in particular the phase — unchanged, for
every transcript and message. -/
theorem fallback_context_six (st : ManagerState) (o : Oracle) (m : PyStr) :
    (handle_fallback st o m).2.1 = st ∧
    (handle_fallback st o m).2.2.2 =
      [CallRecord.chat (st.messages.drop (st.messages.length - 6))
        (build_system_prompt st ++ ("\n\n".data) ++
          FALLBACK_PROMPT_fmt m st.state.value)] :=
  ⟨rfl, rfl⟩

/-! ### C7: sanitization is length-bounded, and idempotent except at the
truncation corner -/

theorem headNotWs_dropWhile (x : PyStr) :
    headNotWs (x.dropWhile isPySpace) = true := by
  induction x with
  | nil => rfl
  | cons c r ih =>
    by_cases h : isPySpace c
    · simpa [List.dropWhile_cons, h, headNotWs] using ih
    · simp [List.dropWhile_cons, h, headNotWs]

theorem dropWhile_id_of_headNotWs (s : PyStr) (h : headNotWs s = true) :
    s.dropWhile isPySpace = s := by
  cases s with
  | nil => rfl
  | cons c r =>
    simp only [headNotWs, Bool.not_eq_true'] at h
    simp [List.dropWhile_cons, h]

theorem headNotWs_prefix (l t : PyStr) (h : headNotWs (l ++ t) = true) :
    headNotWs l = true := by
  cases l <;> simp_all [headNotWs]

/-- The head of the fully stripped text is not whitespace. -/
theorem headNotWs_pyStrip (x : PyStr) : headNotWs (pyStrip x) = true := by
  unfold pyStrip
  have hsuf := List.dropWhile_suffix
    (l := (x.dropWhile isPySpace).reverse) (p := isPySpace)
  obtain ⟨pre, hpre⟩ := hsuf
  have hx : ((x.dropWhile isPySpace).reverse.dropWhile isPySpace).reverse ++
      pre.reverse = x.dropWhile isPySpace := by
    have := congrArg List.reverse hpre
    simpa [List.reverse_append] using this
  exact headNotWs_prefix _ _ (hx ▸ headNotWs_dropWhile x)

theorem collapseWsAux_true_eq_false (l : PyStr) (h : headNotWs l = true) :
    collapseWsAux true l = collapseWsAux false l := by
  cases l with
  | nil => rfl
  | cons c r =>
    simp only [headNotWs, Bool.not_eq_true'] at h
    simp [collapseWsAux, h]

theorem headNotWs_collapseAux_true (s : PyStr) :
    headNotWs (collapseWsAux true s) = true := by
  induction s with
  | nil => rfl
  | cons c r ih =>
    by_cases h : isPySpace c
    · simpa [collapseWsAux, h, headNotWs] using ih
    · simp [collapseWsAux, h, headNotWs]

theorem headNotWs_collapse (s : PyStr) (h : headNotWs s = true) :
    headNotWs (collapseWs s) = true := by
  cases s with
  | nil => rfl
  | cons c r =>
    simp only [headNotWs, Bool.not_eq_true'] at h
    simp [collapseWs, collapseWsAux, h, headNotWs]

theorem wsNorm_collapseAux (s : PyStr) : ∀ b,
    wsNorm (collapseWsAux b s) = true := by
  induction s with
  | nil => intro b; rfl
  | cons c r ih =>
    intro b
    by_cases h : isPySpace c
    · cases b with
      | true => simpa [collapseWsAux, h] using ih true
      | false =>
        have hsp : isPySpace ' ' = true := rfl
        simp only [collapseWsAux, h, if_true]
        simp [wsNorm, hsp, headNotWs_collapseAux_true r, ih true]
    · simp [collapseWsAux, h, wsNorm, ih false]

theorem collapseWsAux_id (s : PyStr) : ∀ b, wsNorm s = true →
    (b = true → headNotWs s = true) → collapseWsAux b s = s := by
  induction s with
  | nil => intro b _ _; rfl
  | cons c r ih =>
    intro b hn hb
    by_cases h : isPySpace c
    · simp only [wsNorm, h, if_true, Bool.and_eq_true, beq_iff_eq] at hn
      obtain ⟨⟨hc, hr⟩, hnr⟩ := hn
      cases b with
      | true =>
        have := hb rfl
        simp [headNotWs, h] at this
      | false =>
        subst hc
        simp only [collapseWsAux, h, if_true]
        rw [collapseWsAux_true_eq_false r hr,
          ih false hnr (by intro hx; cases hx)]
        simp
    · simp only [wsNorm, h, if_false, Bool.true_and] at hn
      cases b <;>
        simp [collapseWsAux, h, ih false hn (by intro hx; cases hx)]

theorem wsNorm_mem (s : PyStr) (hn : wsNorm s = true) :
    ∀ c ∈ s, isPySpace c = true → c = ' ' := by
  induction s with
  | nil => intro c hc; cases hc
  | cons a r ih =>
    intro c hc hw
    simp only [wsNorm, Bool.and_eq_true] at hn
    rcases List.mem_cons.mp hc with h | h
    · subst h
      rcases hn with ⟨h1, _⟩
      by_cases ha : isPySpace c
      · simp [ha, Bool.and_eq_true, beq_iff_eq] at h1
        exact h1.1
      · exact absurd hw ha
    · exact ih hn.2 c h hw

theorem headNotWs_take (s : PyStr) (n : Nat) (h : headNotWs s = true) :
    headNotWs (s.take n) = true := by
  cases s <;> cases n <;> simp_all [headNotWs]

theorem wsNorm_take (s : PyStr) : ∀ (n : Nat), wsNorm s = true →
    wsNorm (s.take n) = true := by
  induction s with
  | nil => intro n _; simp [wsNorm]
  | cons c r ih =>
    intro n hn
    cases n with
    | zero => rfl
    | succ m =>
      simp only [wsNorm, Bool.and_eq_true] at hn
      obtain ⟨h1, h2⟩ := hn
      simp only [List.take_succ_cons, wsNorm, Bool.and_eq_true]
      refine ⟨?_, ih m h2⟩
      by_cases hw : isPySpace c
      · simp only [hw, if_true, Bool.and_eq_true, beq_iff_eq] at h1 ⊢
        exact ⟨h1.1, headNotWs_take r m h1.2⟩
      · simp [hw]

theorem pyStrip_id (s : PyStr) (h1 : headNotWs s = true)
    (h2 : headNotWs s.reverse = true) : pyStrip s = s := by
  unfold pyStrip
  rw [dropWhile_id_of_headNotWs s h1, dropWhile_id_of_headNotWs _ h2,
    List.reverse_reverse]

/-- C7 (amended): `sanitize_input` always returns at most 2000 characters,
and it is idempotent on every input whose sanitized form does not end in a
space — the only failures are inputs whose trimmed, collapsed text exceeds
2000 characters and is cut exactly after a space (see the
counterexample). -/
theorem sanitize_input_bounded_idempotent (x : PyStr) :
    (sanitize_input x).length ≤ 2000 ∧
    ((sanitize_input x).getLast? ≠ some ' ' →
      sanitize_input (sanitize_input x) = sanitize_input x) := by
  constructor
  · simp [sanitize_input]
  · intro hlast
    have hwt : wsNorm (collapseWs (pyStrip x)) = true :=
      wsNorm_collapseAux _ false
    have hht : headNotWs (collapseWs (pyStrip x)) = true :=
      headNotWs_collapse _ (headNotWs_pyStrip x)
    have hw1 : wsNorm (sanitize_input x) = true := by
      simpa [sanitize_input] using
        wsNorm_take (collapseWs (pyStrip x)) 2000 hwt
    have hh1 : headNotWs (sanitize_input x) = true := by
      simpa [sanitize_input] using
        headNotWs_take (collapseWs (pyStrip x)) 2000 hht
    have hrev : headNotWs (sanitize_input x).reverse = true := by
      cases hr : (sanitize_input x).reverse with
      | nil => rfl
      | cons c r =>
        have hc : (sanitize_input x).getLast? = some c := by
          rw [← List.head?_reverse, hr]; rfl
        have hmem : c ∈ sanitize_input x := by
          have : c ∈ (sanitize_input x).reverse := by rw [hr]; simp
          simpa using this
        simp only [headNotWs, Bool.not_eq_true']
        by_cases hw : isPySpace c
        · have := wsNorm_mem _ hw1 c hmem hw
          subst this
          exact absurd hc hlast
        · simpa using hw
    have hstrip : pyStrip (sanitize_input x) = sanitize_input x :=
      pyStrip_id _ hh1 hrev
    have hcoll : collapseWs (sanitize_input x) = sanitize_input x :=
      collapseWsAux_id _ false hw1 (by intro hx; cases hx)
    show (collapseWs (pyStrip (sanitize_input x))).take 2000 = sanitize_input x
    rw [hstrip, hcoll]
    exact List.take_of_length_le (by simp [sanitize_input])

/-- C7 witness: a sanitization that does not hit the truncation corner is a
fixed point of a second pass. -/
theorem sanitize_input_bounded_idempotent_witness :
    (sanitize_input (("  hello   world  ").data)).length ≤ 2000 ∧
    sanitize_input (sanitize_input (("  hello   world  ").data)) =
      sanitize_input (("  hello   world  ").data) :=
  ⟨(sanitize_input_bounded_idempotent _).1,
   (sanitize_input_bounded_idempotent _).2 (by decide)⟩

theorem altAA_succ (n : Nat) : altAA (n + 1) = 'a' :: ' ' :: altAA n := by
  simp [altAA, List.replicate_succ]

theorem altAA_concat (n : Nat) : altAA (n + 1) = aaOdd n ++ [' '] := by
  simp [altAA, aaOdd, List.replicate_succ', List.join_append]

theorem aaOdd_succ (n : Nat) : aaOdd (n + 1) = 'a' :: ' ' :: aaOdd n := by
  simp [aaOdd, altAA_succ n]

theorem altAA_length (n : Nat) : (altAA n).length = 2 * n := by
  induction n with
  | zero => rfl
  | succ m ih => rw [altAA_succ]; simp [ih]; omega

theorem aaOdd_length (n : Nat) : (aaOdd n).length = 2 * n + 1 := by
  simp [aaOdd, altAA_length]

theorem aaOdd_head (n : Nat) : ∃ t, aaOdd n = 'a' :: t := by
  cases n with
  | zero => exact ⟨[], rfl⟩
  | succ m => exact ⟨' ' :: aaOdd m, aaOdd_succ m⟩

theorem collapse_aaOdd (n : Nat) : collapseWsAux false (aaOdd n) = aaOdd n := by
  induction n with
  | zero => rfl
  | succ m ih =>
    rw [aaOdd_succ]
    obtain ⟨t, ht⟩ := aaOdd_head m
    have htrue : collapseWsAux true (aaOdd m) =
        collapseWsAux false (aaOdd m) := by
      apply collapseWsAux_true_eq_false
      rw [ht]; rfl
    have ha : isPySpace 'a' = false := rfl
    have hs : isPySpace ' ' = true := rfl
    simp [collapseWsAux, ha, hs, htrue, ih]

theorem pyStrip_aaOdd_sp (n : Nat) : pyStrip (aaOdd n ++ [' ']) = aaOdd n := by
  obtain ⟨t, ht⟩ := aaOdd_head n
  unfold pyStrip
  have h1 : (aaOdd n ++ [' ']).dropWhile isPySpace = aaOdd n ++ [' '] := by
    rw [ht]; rfl
  rw [h1, List.reverse_append]
  have h2 : ([' '].reverse ++ (aaOdd n).reverse).dropWhile isPySpace =
      (aaOdd n).reverse.dropWhile isPySpace := by rfl
  rw [h2]
  have h3 : (aaOdd n).reverse = 'a' :: (altAA n).reverse := by
    simp [aaOdd, List.reverse_append]
  rw [h3]
  have h4 : ('a' :: (altAA n).reverse).dropWhile isPySpace =
      'a' :: (altAA n).reverse := by rfl
  rw [h4, ← h3, List.reverse_reverse]

theorem sanitize_longAlt : sanitize_input longAlt = altAA 1000 := by
  unfold sanitize_input longAlt
  rw [altAA_concat 1000, pyStrip_aaOdd_sp 1000]
  show (collapseWsAux false (aaOdd 1000)).take 2000 = altAA 1000
  rw [collapse_aaOdd 1000]
  have : aaOdd 1000 = altAA 1000 ++ ['a'] := rfl
  rw [this, List.take_left' (altAA_length 1000)]

theorem sanitize_altAA_1000 : sanitize_input (altAA 1000) = aaOdd 999 := by
  unfold sanitize_input
  rw [altAA_concat 999, pyStrip_aaOdd_sp 999]
  show (collapseWsAux false (aaOdd 999)).take 2000 = aaOdd 999
  rw [collapse_aaOdd 999]
  apply List.take_of_length_le
  rw [aaOdd_length]
  omega

/-- C7 counterexample: on "a " repeated 1001 times, the sanitized text is
exactly 2000 characters ending in a space (the truncation cut after a
space), and a second sanitization strips that space — so
`sanitize(sanitize(x)) ≠ sanitize(x)`. -/
theorem sanitize_idempotent_counterexample :
    (sanitize_input longAlt).length = 2000 ∧
    sanitize_input (sanitize_input longAlt) ≠ sanitize_input longAlt := by
  constructor
  · rw [sanitize_longAlt, altAA_length]
  · rw [sanitize_longAlt, sanitize_altAA_1000]
    intro he
    have := congrArg List.length he
    rw [aaOdd_length, altAA_length] at this
    omega

/-! ### Reachability invariant: while gathering, the profile is incomplete
and the questions flag is still clear -/

/-- The extraction merge never touches the questions flag. -/
theorem extract_merge_flag (st : ManagerState) (resp : PyStr) :
    (extract_merge st resp).technical_questions_asked =
      st.technical_questions_asked := by
  unfold extract_merge
  cases hext : extract_json_from_response resp with
  | none => rfl
  | some j =>
    dsimp only
    split
    · split <;> rfl
    · rfl

/-- The extraction merge never touches the transcript. -/
theorem extract_merge_messages (st : ManagerState) (resp : PyStr) :
    (extract_merge st resp).messages = st.messages := by
  unfold extract_merge
  cases hext : extract_json_from_response resp with
  | none => rfl
  | some j =>
    dsimp only
    split
    · split <;> rfl
    · rfl

/-- If the extraction merge leaves the phase at GatheringInfo, it was
already there. -/
theorem extract_merge_state (st : ManagerState) (resp : PyStr)
    (hx : (extract_merge st resp).state = ConversationState.GATHERING_INFO) :
    st.state = ConversationState.GATHERING_INFO := by
  unfold extract_merge at hx
  revert hx
  cases hext : extract_json_from_response resp with
  | none => exact fun hx => hx
  | some j =>
    dsimp only
    split
    · split
      · intro hx
        simp at hx
      · exact fun hx => hx
    · exact fun hx => hx

/-- If the completeness heuristic leaves the phase at GatheringInfo, it did
nothing and the profile is incomplete. -/
theorem heuristic_step_gathering (s : ManagerState)
    (hx : (heuristic_step s).state = ConversationState.GATHERING_INFO) :
    heuristic_step s = s ∧ s.candidate.is_complete = false := by
  unfold heuristic_step at hx ⊢
  by_cases hc : (s.candidate.is_complete &&
      !(s.state == ConversationState.TECH_QUESTIONS)) = true
  · rw [if_pos hc] at hx
    simp at hx
  · rw [if_neg hc] at hx ⊢
    refine ⟨rfl, ?_⟩
    cases hb : s.candidate.is_complete
    · rfl
    · rw [hx] at hc
      simp [hb] at hc

/-- If the whole merge pipeline leaves the phase at GatheringInfo, the
profile is still incomplete and the flag untouched. -/
theorem gather_merge_gathering_inv (st : ManagerState) (resp : PyStr)
    (hx : (heuristic_step (extract_merge st resp)).state =
      ConversationState.GATHERING_INFO) :
    (heuristic_step (extract_merge st resp)).candidate.is_complete = false ∧
    (heuristic_step (extract_merge st resp)).technical_questions_asked =
      st.technical_questions_asked := by
  obtain ⟨heq, hcomp⟩ := heuristic_step_gathering _ hx
  rw [heq]
  exact ⟨hcomp, extract_merge_flag st resp⟩

/-- In every reachable engine state, being in the GatheringInfo phase means
the profile is not yet complete and the technical questions have not yet
been generated. -/
theorem reachable_gathering_inv {s : ManagerState} (hr : Reachable s) :
    s.state = ConversationState.GATHERING_INFO →
      s.candidate.is_complete = false ∧
      s.technical_questions_asked = false := by
  induction hr with
  | init =>
    intro hx
    exact absurd hx (by decide)
  | greet o =>
    intro _
    exact ⟨(by decide : emptyCandidate.is_complete = false), rfl⟩
  | step o m hr ih =>
    rename_i s
    intro hx
    by_cases hex : check_exit_intent (sanitize_input m) EXIT_KEYWORDS = true
    · exfalso
      unfold process_message at hx
      simp only [hex, if_true] at hx
      unfold handle_exit at hx
      dsimp only at hx
      simp at hx
    · simp only [Bool.not_eq_true] at hex
      obtain ⟨sst, cand, msgs, flag, sent, raw⟩ := s
      unfold process_message at hx ⊢
      simp only [hex, Bool.false_eq_true, if_false] at hx ⊢
      cases sst with
      | GREETING =>
        exfalso
        unfold dispatch analyze_sentiment_step handle_fallback at hx
        dsimp only at hx
        simp at hx
      | GATHERING_INFO =>
        obtain ⟨hcomp, hflag⟩ := ih rfl
        unfold dispatch analyze_sentiment_step handle_info_gathering
          at hx ⊢
        dsimp only at hx ⊢
        split at hx
        · exfalso
          simp at hx
        · rename_i hC3
          rw [if_neg hC3]
          dsimp only at hx
          obtain ⟨h1, h2⟩ := gather_merge_gathering_inv _ _ hx
          exact ⟨h1, h2.trans hflag⟩
      | TECH_QUESTIONS =>
        exfalso
        unfold dispatch analyze_sentiment_step handle_tech_interaction at hx
        dsimp only at hx
        simp at hx
      | ANSWERING_QUESTIONS =>
        exfalso
        unfold dispatch analyze_sentiment_step handle_tech_interaction at hx
        dsimp only at hx
        simp at hx
      | CLOSING =>
        exfalso
        unfold dispatch analyze_sentiment_step handle_closing at hx
        dsimp only at hx
        simp at hx
      | ENDED =>
        exfalso
        unfold dispatch analyze_sentiment_step handle_fallback at hx
        dsimp only at hx
        simp at hx

/-! ### C4: transport failures surface as the fixed apology and change
nothing -/

set_option maxRecDepth 8000 in
theorem extract_fallback_none :
    extract_json_from_response FALLBACK_TEXT = none := rfl

set_option maxRecDepth 8000 in
theorem strip_fallback_id :
    strip_json_from_response FALLBACK_TEXT = FALLBACK_TEXT := rfl

theorem extract_merge_fallback (s : ManagerState) :
    extract_merge s FALLBACK_TEXT = s := by
  unfold extract_merge
  rw [extract_fallback_none]

theorem heuristic_step_incomplete (s : ManagerState)
    (hc : s.candidate.is_complete = false) : heuristic_step s = s := by
  unfold heuristic_step
  rw [hc]
  rfl

/-- C4: a failing completion call returns the single fixed apologetic
sentence instead of propagating; when the failure strikes the
info-gathering request of a reachable GatheringInfo turn, the user sees
exactly that sentence and the phase and the whole profile are unchanged. -/
theorem model_failure_gathering_safe (st : ManagerState)
    (r1 : Except Unit PyStr) (o' : Oracle) (m : PyStr) (hr : Reachable st)
    (hst : st.state = ConversationState.GATHERING_INFO)
    (hex : check_exit_intent (sanitize_input m) EXIT_KEYWORDS = false) :
    (∀ (messages : List Msg) (sys : PyStr) (o2 : Oracle),
      (get_chat_response (Except.error () :: o2) messages sys).1 =
        FALLBACK_TEXT) ∧
    (process_message st (r1 :: Except.error () :: o') m).1.1 =
      FALLBACK_TEXT ∧
    (process_message st (r1 :: Except.error () :: o') m).2.1.state =
      ConversationState.GATHERING_INFO ∧
    (process_message st (r1 :: Except.error () :: o') m).2.1.candidate =
      st.candidate := by
  obtain ⟨hcomp, _⟩ := reachable_gathering_inv hr hst
  refine ⟨fun _ _ _ => rfl, ?_⟩
  unfold process_message
  simp only [hex, Bool.false_eq_true, if_false]
  unfold dispatch analyze_sentiment_step
  dsimp only
  rw [hst]
  unfold handle_info_gathering llm_analyze_sentiment get_chat_response
    oracleHead oracleTail
  dsimp only
  rw [extract_merge_fallback, heuristic_step_incomplete, strip_fallback_id]
  · dsimp only
    refine ⟨?_, ?_, ?_⟩ <;> rfl
  · exact hcomp

/-- C4 witness: the greeting is generated, then the info-gathering call
fails; the turn returns the apology and changes neither phase nor
profile. -/
theorem model_failure_gathering_safe_witness :
    (process_message
      (generate_greeting initManager [Except.ok ("hi".data)]).2.1
      (Except.ok ("x".data) :: Except.error () :: [])
      (("my name is Ada").data)).1.1 = FALLBACK_TEXT ∧
    (process_message
      (generate_greeting initManager [Except.ok ("hi".data)]).2.1
      (Except.ok ("x".data) :: Except.error () :: [])
      (("my name is Ada").data)).2.1.state =
        ConversationState.GATHERING_INFO ∧
    (process_message
      (generate_greeting initManager [Except.ok ("hi".data)]).2.1
      (Except.ok ("x".data) :: Except.error () :: [])
      (("my name is Ada").data)).2.1.candidate = emptyCandidate := by
  have h := model_failure_gathering_safe
    (generate_greeting initManager [Except.ok ("hi".data)]).2.1
    (Except.ok ("x".data)) [] (("my name is Ada").data)
    (Reachable.greet _) rfl (by decide)
  exact ⟨h.2.1, h.2.2.1, h.2.2.2⟩

/-! ### C1: an all-collected extraction finishes the gathering phase and
generates the questions within the same call -/

/-- When the reply parses with an "extracted" block and either reports
all-collected or completes the profile, the merge pipeline lands on
TechQuestions with the merged profile. -/
theorem gather_merge_all_collected (st : ManagerState) (resp : PyStr)
    (j : JValue) (hext : extract_json_from_response resp = some j)
    (hkey : (j.truthy && j.hasKey ("extracted".data)) = true)
    (hall : ((j.getKey ("all_collected".data)).elim false JValue.truthy
      || (write_extracted st.candidate
          (((j.getKey ("extracted".data)).getD JValue.null).items)).is_complete)
        = true) :
    heuristic_step (extract_merge st resp) =
      { st with
        candidate := write_extracted st.candidate
          (((j.getKey ("extracted".data)).getD JValue.null).items),
        state := ConversationState.TECH_QUESTIONS } := by
  unfold extract_merge heuristic_step
  rw [hext]
  dsimp only
  simp only [hkey, hall, if_true]
  simp

/-- C1: in a reachable GatheringInfo turn whose (non-exit) message yields a
model reply carrying a truthy structured block with key "extracted" that
reports all-collected (or completes the profile), the engine transitions to
TechQuestions and, within the same call, generates the technical questions
with defaults for any still-missing of name / experience / positions /
tech-stack, stores the (non-empty) raw questions text, sets the
questions-generated flag, appends the questions to the visible response,
and ends the call in AnsweringQuestions. -/
theorem gathering_all_collected_generates_questions (st : ManagerState)
    (r1 : Except Unit PyStr) (resp rq m : PyStr) (o' : Oracle) (j : JValue)
    (hr : Reachable st) (hst : st.state = ConversationState.GATHERING_INFO)
    (hex : check_exit_intent (sanitize_input m) EXIT_KEYWORDS = false)
    (hext : extract_json_from_response resp = some j)
    (hkey : (j.truthy && j.hasKey ("extracted".data)) = true)
    (hall : ((j.getKey ("all_collected".data)).elim false JValue.truthy
      || (write_extracted st.candidate
          (((j.getKey ("extracted".data)).getD JValue.null).items)).is_complete)
        = true)
    (hrq : rq ≠ []) :
    (process_message st (r1 :: Except.ok resp :: Except.ok rq :: o')
      m).2.1.state = ConversationState.ANSWERING_QUESTIONS ∧
    (process_message st (r1 :: Except.ok resp :: Except.ok rq :: o')
      m).2.1.technical_questions_asked = true ∧
    (process_message st (r1 :: Except.ok resp :: Except.ok rq :: o')
      m).2.1.raw_tech_questions = rq ∧
    (process_message st (r1 :: Except.ok resp :: Except.ok rq :: o')
      m).2.1.raw_tech_questions ≠ [] ∧
    (process_message st (r1 :: Except.ok resp :: Except.ok rq :: o')
      m).2.1.candidate = write_extracted st.candidate
        (((j.getKey ("extracted".data)).getD JValue.null).items) ∧
    (process_message st (r1 :: Except.ok resp :: Except.ok rq :: o')
      m).1.1 = pyRstrip (strip_json_from_response resp) ++ ("\n\n".data)
        ++ rq ∧
    (process_message st (r1 :: Except.ok resp :: Except.ok rq :: o')
      m).2.2.2.get? 2 = some (CallRecord.techq
        (orDefault (write_extracted st.candidate
          (((j.getKey ("extracted".data)).getD JValue.null).items)).tech_stack
          ("General Programming".data))
        (orDefault (write_extracted st.candidate
          (((j.getKey ("extracted".data)).getD JValue.null).items)).full_name
          ("Candidate".data))
        (orDefault (write_extracted st.candidate
          (((j.getKey ("extracted".data)).getD JValue.null).items)).years_of_experience
          ("Unknown".data))
        (orDefault (write_extracted st.candidate
          (((j.getKey ("extracted".data)).getD JValue.null).items)).desired_positions
          ("Software Engineer".data))) := by
  obtain ⟨_, hflag⟩ := reachable_gathering_inv hr hst
  unfold process_message
  simp only [hex, Bool.false_eq_true, if_false]
  unfold dispatch analyze_sentiment_step
  dsimp only
  rw [hst]
  unfold handle_info_gathering llm_analyze_sentiment get_chat_response
    oracleHead oracleTail
  dsimp only
  have hmerge : ∀ (msgs : List Msg) (sentv : PyStr),
      heuristic_step (extract_merge
        { state := ConversationState.GATHERING_INFO,
          candidate := st.candidate, messages := msgs,
          technical_questions_asked := st.technical_questions_asked,
          current_sentiment := sentv,
          raw_tech_questions := st.raw_tech_questions } resp) =
      { state := ConversationState.TECH_QUESTIONS,
        candidate := write_extracted st.candidate
          (((j.getKey ("extracted".data)).getD JValue.null).items),
        messages := msgs,
        technical_questions_asked := st.technical_questions_asked,
        current_sentiment := sentv,
        raw_tech_questions := st.raw_tech_questions } := by
    intro msgs sentv
    exact gather_merge_all_collected _ _ j hext hkey hall
  rw [hmerge]
  dsimp only
  rw [hflag]
  unfold generate_tech_questions_step llm_generate_technical_questions
    get_chat_response oracleHead oracleTail
  dsimp only
  refine ⟨?_, ?_, ?_, ?_, ?_, ?_, ?_⟩ <;> first | rfl | exact hrq

set_option maxRecDepth 20000 in
/-- C1 witness: a concrete all-collected turn right after the greeting ends
in AnsweringQuestions with the generated questions stored and appended. -/
theorem gathering_all_collected_generates_questions_witness :
    (process_message (generate_greeting initManager [Except.ok ("hi".data)]).2.1
      (Except.ok ("x".data) :: Except.ok respW ::
        Except.ok ("### Python\n1. What is a decorator and when is it useful?".data) :: [])
      (("here are my details").data)).2.1.state =
        ConversationState.ANSWERING_QUESTIONS ∧
    (process_message (generate_greeting initManager [Except.ok ("hi".data)]).2.1
      (Except.ok ("x".data) :: Except.ok respW ::
        Except.ok ("### Python\n1. What is a decorator and when is it useful?".data) :: [])
      (("here are my details").data)).2.1.technical_questions_asked = true ∧
    (process_message (generate_greeting initManager [Except.ok ("hi".data)]).2.1
      (Except.ok ("x".data) :: Except.ok respW ::
        Except.ok ("### Python\n1. What is a decorator and when is it useful?".data) :: [])
      (("here are my details").data)).2.1.raw_tech_questions ≠ [] := by
  have h := gathering_all_collected_generates_questions
    (generate_greeting initManager [Except.ok ("hi".data)]).2.1
    (Except.ok ("x".data)) respW
    ("### Python\n1. What is a decorator and when is it useful?".data)
    (("here are my details").data) [] jW
    (Reachable.greet _) rfl (by decide) (by rfl) (by decide) (by decide)
    (by decide)
  exact ⟨h.1, h.2.1, h.2.2.2.1⟩

/-! ### C9: technical-question parsing -/

/-- C9: a captured question line is kept exactly when a technology header
is active and the captured text (stripped) is longer than 10 characters; a
header whose technology accumulated no valid questions emits no group
(both on header change and at end of input); and the claim's concrete
input parses to the two claimed groups, with Tech B's "Short?" dropped. -/
theorem parse_technical_questions_props :
    (∀ (tech : Option PyStr) (qs : List PyStr) (line : PyStr)
      (rest : List PyStr) (cap : PyStr),
      ((headerMatch1 (pyStrip line)).orElse
        (fun _ => boldMatch (pyStrip line))) = none →
      ((qMatchNum (pyStrip line)).orElse
        (fun _ => qMatchBullet (pyStrip line))) = some cap →
      (pyStrip line).isEmpty = false →
      parseTQAux tech qs (line :: rest) =
        if techActive tech = true ∧ 10 < (pyStrip cap).length then
          parseTQAux tech (qs ++ [pyStrip cap]) rest
        else parseTQAux tech qs rest) ∧
    (∀ (tech : Option PyStr) (line : PyStr) (rest : List PyStr) (g : PyStr),
      ((headerMatch1 (pyStrip line)).orElse
        (fun _ => boldMatch (pyStrip line))) = some g →
      (pyStrip line).isEmpty = false →
      parseTQAux tech [] (line :: rest) =
        parseTQAux (some (techName g)) [] rest) ∧
    (∀ (tech : Option PyStr), parseTQAux tech [] [] = []) ∧
    parse_technical_questions
      (("### Tech A\n1. What is recursion and why does it matter?\n2. Explain Big-O notation please.\n### Tech B\n1. Short?\n2. What is a closure and how is it used?").data) =
      [TechGroup.mk ("Tech A".data)
        [("What is recursion and why does it matter?".data),
         ("Explain Big-O notation please.".data)],
       TechGroup.mk ("Tech B".data)
        [("What is a closure and how is it used?".data)]] := by
  refine ⟨?_, ?_, ?_, by decide⟩
  · intro tech qs line rest cap hnh hq hne
    simp only [parseTQAux, hne, Bool.false_eq_true, if_false, hnh, hq]
    by_cases ht : techActive tech = true
    · by_cases hl : 10 < (pyStrip cap).length
      · have hne2 : (pyStrip cap).isEmpty = false := by
          cases hc : pyStrip cap with
          | nil => rw [hc] at hl; simp at hl
          | cons a b => rfl
        simp [ht, hl, hne2]
      · have : ¬(10 < (pyStrip cap).length) := hl
        simp only [ht, if_true]
        rw [if_neg, if_neg]
        · intro hcontr
          exact absurd hcontr (by simp [ht, hl])
        · simp only [Bool.and_eq_true, decide_eq_true_eq, Bool.not_eq_true']
          intro hcontr
          omega
    · have ht' : techActive tech = false := by
        cases hta : techActive tech
        · rfl
        · exact absurd hta ht
      simp [ht', ht]
  · intro tech line rest g hh hne
    simp only [parseTQAux, hne, Bool.false_eq_true, if_false, hh]
    simp [techActive]
  · intro tech
    simp [parseTQAux]

/-- C9 witness: the keep-condition applied at a concrete short question
line under an active header ("Short?" is dropped), and at a concrete long
one (kept). -/
theorem parse_technical_questions_props_witness :
    parseTQAux (some ("T".data)) [] [("1. Short?".data)] = [] ∧
    parseTQAux (some ("T".data)) []
      [("1. What is a closure and how is it used?".data)] =
      [TechGroup.mk ("T".data)
        [("What is a closure and how is it used?".data)]] := by
  constructor
  · rw [parse_technical_questions_props.1 (some ("T".data)) []
      (("1. Short?").data) [] (("Short?").data) (by rfl) (by rfl) (by rfl)]
    decide
  · rw [parse_technical_questions_props.1 (some ("T".data)) []
      (("1. What is a closure and how is it used?").data) []
      (("What is a closure and how is it used?").data)
      (by rfl) (by rfl) (by rfl)]
    decide

/-! ### C8: extraction success versus leftover JSON syntax after stripping -/

theorem isPrefixOf_append_self (l t : PyStr) : l.isPrefixOf (l ++ t) = true := by
  induction l with
  | nil => cases t <;> rfl
  | cons c r ih => simp [List.isPrefixOf, ih]

theorem isPrefixOf_cons_ne (a : Char) (as : PyStr) (c : Char) (xs : PyStr)
    (h : a ≠ c) : (a :: as).isPrefixOf (c :: xs) = false := by
  simp [List.isPrefixOf, h]

theorem tickjson_isPrefixOf_ne (c : Char) (xs : PyStr) (h : c ≠ '\x60') :
    TICKJSON.isPrefixOf (c :: xs) = false := by
  have he : TICKJSON = '\x60' :: ("``json".data) := rfl
  rw [he]
  exact isPrefixOf_cons_ne _ _ _ _ (Ne.symm h)

theorem ticks_isPrefixOf_ne (c : Char) (xs : PyStr) (h : c ≠ '\x60') :
    TICKS.isPrefixOf (c :: xs) = false := by
  have he : TICKS = '\x60' :: ("``".data) := rfl
  rw [he]
  exact isPrefixOf_cons_ne _ _ _ _ (Ne.symm h)

theorem dropWhile_ws_nl_ticks (post : PyStr) :
    ('\n' :: (TICKS ++ post)).dropWhile isPySpace = TICKS ++ post := by
  show List.dropWhile isPySpace ('\n' :: '\x60' :: '\x60' :: '\x60' :: post) =
    '\x60' :: '\x60' :: '\x60' :: post
  have h1 : isPySpace '\n' = true := rfl
  have h2 : isPySpace '\x60' = false := rfl
  simp [List.dropWhile_cons, h1, h2]

theorem lazyCloseFenced_through (body : PyStr) (hbody : ∀ c ∈ body, c ≠ '\x60') :
    ∀ accRev post, lazyCloseFenced accRev (body ++ ('}' :: '\n' :: (TICKS ++ post))) =
      some ('{' :: (accRev.reverse ++ (body ++ ['}'])), post) := by
  induction body with
  | nil =>
    intro accRev post
    have hok : fencedCloseOk ('\n' :: (TICKS ++ post)) = true := by
      unfold fencedCloseOk
      rw [dropWhile_ws_nl_ticks]
      exact isPrefixOf_append_self TICKS post
    have hat : afterTicks ('\n' :: (TICKS ++ post)) = post := by
      unfold afterTicks
      rw [dropWhile_ws_nl_ticks]
      exact List.drop_left TICKS post
    simp only [List.nil_append, lazyCloseFenced, hok, hat]
    simp
  | cons c body' ih =>
    intro accRev post
    have hc : c ≠ '\x60' := hbody c (List.mem_cons_self _ _)
    have hbody' : ∀ x ∈ body', x ≠ '\x60' :=
      fun x hx => hbody x (List.mem_cons_of_mem _ hx)
    have hcond : (c == '}' && fencedCloseOk (body' ++ ('}' :: '\n' :: (TICKS ++ post)))) = false := by
      by_cases hcq : c = '}'
      · have hko : fencedCloseOk (body' ++ ('}' :: '\n' :: (TICKS ++ post))) = false := by
          unfold fencedCloseOk
          rw [List.dropWhile_append]
          by_cases he : (body'.dropWhile isPySpace).isEmpty = true
          · rw [if_pos he]
            have h3 : isPySpace '}' = false := rfl
            rw [List.dropWhile_cons, h3]
            simp only [Bool.false_eq_true, if_false]
            exact ticks_isPrefixOf_ne '}' _ (by decide)
          · rw [if_neg he]
            cases hdw : body'.dropWhile isPySpace with
            | nil => rw [hdw] at he; simp at he
            | cons d r =>
              have hd : d ∈ body' :=
                (List.dropWhile_sublist isPySpace).subset
                  (by rw [hdw]; exact List.mem_cons_self d r)
              exact ticks_isPrefixOf_ne d _ (hbody' d hd)
        rw [hko, Bool.and_false]
      · have : (c == '}') = false := by
          cases hb : (c == '}') with
          | false => rfl
          | true => exact absurd (by exact beq_iff_eq.mp hb) hcq
        rw [this, Bool.false_and]
    simp only [List.cons_append, lazyCloseFenced, List.append_eq, hcond, Bool.false_eq_true, if_false]
    rw [ih hbody' (c :: accRev) post]
    simp [List.append_assoc]

theorem fencedComplete_block (body post : PyStr) (hbody : ∀ c ∈ body, c ≠ '\x60') :
    fencedComplete ('\n' :: '{' :: (body ++ ('}' :: '\n' :: (TICKS ++ post)))) =
      some ('{' :: (body ++ ['}']), post) := by
  unfold fencedComplete
  have h1 : ('\n' :: '{' :: (body ++ ('}' :: '\n' :: (TICKS ++ post)))).dropWhile isPySpace =
      '{' :: (body ++ ('}' :: '\n' :: (TICKS ++ post))) := by
    have ha : isPySpace '\n' = true := rfl
    have hb : isPySpace '{' = false := rfl
    simp [List.dropWhile_cons, ha, hb]
  rw [h1]
  show lazyCloseFenced [] (body ++ ('}' :: '\n' :: (TICKS ++ post))) = _
  rw [lazyCloseFenced_through body hbody [] post]
  simp

theorem stripFencedAux_block (body post : PyStr) (hbody : ∀ c ∈ body, c ≠ '\x60')
    (fuel : Nat) :
    stripFencedAux (fuel + 1) (fencedBlock body post) = stripFencedAux fuel post := by
  have hshow : fencedBlock body post =
      '\x60' :: (("``json".data) ++ ('\n' :: '{' :: (body ++ ('}' :: '\n' :: (TICKS ++ post))))) := rfl
  rw [hshow]
  have hpre : TICKJSON.isPrefixOf
      ('\x60' :: (("``json".data) ++ ('\n' :: '{' :: (body ++ ('}' :: '\n' :: (TICKS ++ post)))))) = true :=
    isPrefixOf_append_self TICKJSON _
  have hdrop : ('\x60' :: (("``json".data) ++ ('\n' :: '{' :: (body ++ ('}' :: '\n' :: (TICKS ++ post)))))).drop 7 =
      '\n' :: '{' :: (body ++ ('}' :: '\n' :: (TICKS ++ post))) :=
    List.drop_left TICKJSON _
  simp only [stripFencedAux, hpre, if_true, hdrop,
    fencedComplete_block body post hbody]

theorem stripFencedAux_no_tick_append :
    ∀ pre : PyStr, (∀ c ∈ pre, c ≠ '\x60') → ∀ (n : Nat) (t : PyStr),
      stripFencedAux (pre.length + n) (pre ++ t) = pre ++ stripFencedAux n t := by
  intro pre
  induction pre with
  | nil => intro _ n t; simp
  | cons c p ih =>
    intro hpre n t
    have hc : c ≠ '\x60' := hpre c (List.mem_cons_self _ _)
    have hp : ∀ x ∈ p, x ≠ '\x60' := fun x hx => hpre x (List.mem_cons_of_mem _ hx)
    have hlen : (c :: p).length + n = (p.length + n) + 1 := by
      simp only [List.length_cons]; omega
    rw [hlen, List.cons_append]
    simp only [stripFencedAux, tickjson_isPrefixOf_ne c _ hc,
      Bool.false_eq_true, if_false]
    rw [ih hp n t]
    rfl

theorem fencedComplete_none_no_open (s : PyStr) (h : ∀ c ∈ s, c ≠ '{') :
    fencedComplete s = none := by
  unfold fencedComplete
  cases hdw : s.dropWhile isPySpace with
  | nil => rfl
  | cons d r =>
    have hd : d ∈ s :=
      (List.dropWhile_sublist isPySpace).subset (hdw ▸ List.mem_cons_self d r)
    have hne : d ≠ '{' := h d hd
    split
    · rename_i r' heq
      injection heq with h1 _
      exact absurd h1 hne
    · rfl

theorem stripFencedAux_id_no_open :
    ∀ (fuel : Nat) (s : PyStr), (∀ c ∈ s, c ≠ '{') → stripFencedAux fuel s = s := by
  intro fuel
  induction fuel with
  | zero => intro s _; rfl
  | succ f ih =>
    intro s hs
    cases s with
    | nil => rfl
    | cons c rest =>
      have hrest : ∀ x ∈ rest, x ≠ '{' := fun x hx => hs x (List.mem_cons_of_mem _ hx)
      have hnone : fencedComplete ((c :: rest).drop 7) = none :=
        fencedComplete_none_no_open _ (fun x hx => hs x (List.mem_of_mem_drop hx))
      simp only [stripFencedAux, hnone]
      rw [ih rest hrest]
      exact ite_self _

theorem rawTry_none_no_open (s : PyStr) (h : ∀ c ∈ s, c ≠ '{') : rawTry s = none := by
  cases s with
  | nil => rfl
  | cons c rest =>
    have hne : c ≠ '{' := h c (List.mem_cons_self _ _)
    rw [rawTry.eq_def]
    split
    · rename_i rest' heq
      injection heq with h1 _
      exact absurd h1 hne
    · rfl

theorem stripRawAux_id_no_open :
    ∀ (fuel : Nat) (s : PyStr), (∀ c ∈ s, c ≠ '{') → stripRawAux fuel s = s := by
  intro fuel
  induction fuel with
  | zero => intro s _; rfl
  | succ f ih =>
    intro s hs
    cases s with
    | nil => rfl
    | cons c rest =>
      have hrest : ∀ x ∈ rest, x ≠ '{' := fun x hx => hs x (List.mem_cons_of_mem _ hx)
      simp only [stripRawAux, rawTry_none_no_open _ hs]
      rw [ih rest hrest]

theorem mem_pyStrip (s : PyStr) (c : Char) (h : c ∈ pyStrip s) : c ∈ s := by
  unfold pyStrip at h
  rw [List.mem_reverse] at h
  have h1 := (List.dropWhile_sublist isPySpace).subset h
  rw [List.mem_reverse] at h1
  exact (List.dropWhile_sublist isPySpace).subset h1

theorem mem_collapseNlAux :
    ∀ (s : PyStr) (cnt : Nat) (c : Char), c ∈ collapseNlAux cnt s → c ∈ s := by
  intro s
  induction s with
  | nil => intro cnt c h; simp [collapseNlAux] at h
  | cons d rest ih =>
    intro cnt c h
    simp only [collapseNlAux] at h
    by_cases hd : (d == '\n') = true
    · rw [if_pos hd] at h
      by_cases h2 : cnt ≥ 2
      · rw [if_pos h2] at h
        exact List.mem_cons_of_mem _ (ih _ c h)
      · rw [if_neg h2] at h
        rcases List.mem_cons.mp h with h3 | h3
        · rw [h3]
          have : d = '\n' := beq_iff_eq.mp hd
          rw [this]
          exact List.mem_cons_self _ _
        · exact List.mem_cons_of_mem _ (ih _ c h3)
    · rw [if_neg hd] at h
      rcases List.mem_cons.mp h with h3 | h3
      · rw [h3]; exact List.mem_cons_self _ _
      · exact List.mem_cons_of_mem _ (ih _ c h3)

theorem fencedFind_no_tick_append :
    ∀ pre : PyStr, (∀ c ∈ pre, c ≠ '\x60') → ∀ body post : PyStr,
      (∀ c ∈ body, c ≠ '\x60') →
      fencedFind (pre ++ fencedBlock body post) =
        some (pre, '{' :: (body ++ ['}']), post) := by
  intro pre
  induction pre with
  | nil =>
    intro _ body post hbody
    rw [List.nil_append]
    have hshow : fencedBlock body post =
        '\x60' :: (("``json".data) ++ ('\n' :: '{' :: (body ++ ('}' :: '\n' :: (TICKS ++ post))))) := rfl
    rw [hshow]
    have hpre : TICKJSON.isPrefixOf
        ('\x60' :: (("``json".data) ++ ('\n' :: '{' :: (body ++ ('}' :: '\n' :: (TICKS ++ post)))))) = true :=
      isPrefixOf_append_self TICKJSON _
    have hdrop : ('\x60' :: (("``json".data) ++ ('\n' :: '{' :: (body ++ ('}' :: '\n' :: (TICKS ++ post)))))).drop 7 =
        '\n' :: '{' :: (body ++ ('}' :: '\n' :: (TICKS ++ post))) :=
      List.drop_left TICKJSON _
    simp only [fencedFind, hpre, if_true, hdrop,
      fencedComplete_block body post hbody]
  | cons c p ih =>
    intro hpre body post hbody
    have hc : c ≠ '\x60' := hpre c (List.mem_cons_self _ _)
    have hp : ∀ x ∈ p, x ≠ '\x60' := fun x hx => hpre x (List.mem_cons_of_mem _ hx)
    rw [List.cons_append]
    simp only [fencedFind, tickjson_isPrefixOf_ne c _ hc, Bool.false_eq_true, if_false]
    rw [ih hp body post hbody]
    rfl

set_option maxRecDepth 8000 in
/-- C8 counterexample: on `respC8` the extraction succeeds — the fenced
block parses and the parsed object bears the key `"extracted"` — yet the
stripped text (`"leftover \x7b"`) still contains an opening brace, because
the strip regexes remove only the fenced block itself, not stray braces in
the surrounding prose. -/
theorem strip_after_extract_counterexample :
    ((extract_json_from_response respC8).map
        (fun v => JValue.hasKey v (("extracted").data))) = some true ∧
    (strip_json_from_response respC8).contains '{' = true :=
  ⟨rfl, rfl⟩

/-- C8 (amended): for a response made of brace- and backtick-free prose, a
well-formed fenced ` ```json ` block whose braced body parses as JSON, and
brace-free trailing prose, extraction succeeds and the stripped text
contains no `\x7b` and no `\x7d`. -/
theorem strip_after_fenced_extraction (pre body post : PyStr)
    (hpre : ∀ c ∈ pre, c ≠ '{' ∧ c ≠ '}' ∧ c ≠ '\x60')
    (hbody : ∀ c ∈ body, c ≠ '\x60')
    (hpost : ∀ c ∈ post, c ≠ '{' ∧ c ≠ '}')
    (hparse : (jsonLoads ('{' :: (body ++ ['}']))).isSome = true) :
    (extract_json_from_response (pre ++ fencedBlock body post)).isSome = true ∧
    ∀ c ∈ strip_json_from_response (pre ++ fencedBlock body post),
      c ≠ '{' ∧ c ≠ '}' := by
  have hpre3 : ∀ c ∈ pre, c ≠ '\x60' := fun c hc => (hpre c hc).2.2
  have hpre1 : ∀ c ∈ pre, c ≠ '{' := fun c hc => (hpre c hc).1
  constructor
  · obtain ⟨v, hv⟩ := Option.isSome_iff_exists.mp hparse
    unfold extract_json_from_response
    rw [fencedFind_no_tick_append pre hpre3 body post hbody]
    dsimp only
    rw [hv]
    rfl
  · have hblen : (fencedBlock body post).length = (body.length + post.length + 13) + 1 := by
      simp only [fencedBlock, List.length_append, List.length_cons]
      rw [show TICKJSON.length = 7 from rfl, show TICKS.length = 3 from rfl]
      omega
    have h1 : stripFencedAll (pre ++ fencedBlock body post) = pre ++ post := by
      unfold stripFencedAll
      rw [List.length_append, hblen]
      rw [stripFencedAux_no_tick_append pre hpre3 _ _]
      rw [stripFencedAux_block body post hbody _]
      rw [stripFencedAux_id_no_open _ post (fun c hc => (hpost c hc).1)]
    have h2 : stripRawAll (pre ++ post) = pre ++ post := by
      apply stripRawAux_id_no_open
      intro c hc
      rcases List.mem_append.mp hc with h | h
      · exact hpre1 c h
      · exact (hpost c h).1
    intro c hc
    unfold strip_json_from_response at hc
    rw [h1, h2] at hc
    unfold collapseNl at hc
    have hm := mem_pyStrip _ _ (mem_collapseNlAux _ _ _ hc)
    rcases List.mem_append.mp hm with h | h
    · exact ⟨(hpre c h).1, (hpre c h).2.1⟩
    · exact hpost c h

set_option maxRecDepth 8000 in
/-- C8 witness: the amended theorem applied at the concrete response
`"Answer: "` + fenced `extracted` payload + `" done"`. -/
theorem strip_after_fenced_extraction_witness :
    (∀ c ∈ (("Answer: ").data), c ≠ '{' ∧ c ≠ '}' ∧ c ≠ '\x60') ∧
    ((extract_json_from_response ((("Answer: ").data) ++
        fencedBlock (("\"extracted\": \x7b\"full_name\": \"Ada\"\x7d").data)
          ((" done").data))).isSome = true ∧
      ∀ c ∈ strip_json_from_response ((("Answer: ").data) ++
        fencedBlock (("\"extracted\": \x7b\"full_name\": \"Ada\"\x7d").data)
          ((" done").data)), c ≠ '{' ∧ c ≠ '}') :=
  ⟨by decide,
    strip_after_fenced_extraction _ _ _ (by decide) (by decide) (by decide) (by rfl)⟩

end TalentScout
